import Mathlib

/-!
# Chunk migration core (s/d_migrate.cpp, client/distlock.h)

A shallow embedding of the donor-side write capture (`MigrateFromStatus`), the
`moveChunk` coordinator, the recipient-side state machine (`MigrateStatus`:
`prepare`, `go`, `_go`, `apply`, `startCommit`, and the `_recvChunkStart`
command) and the scoped lock holder `dist_lock_try`, followed by theorems
about them.

Stateful C++ code is rendered as explicit state passing.  Code that lives in
headers outside the two source files (the BSON codec, the storage helpers, the
shard registry) is taken as a parameter, collected in `Externals`.  What other
processes and threads answer during a run is an input of the run (`Remote`,
`DonorFeed`, the `observe` argument of `startCommit`).  The two unbounded
loops of `_go` take a fuel and give `none` when it runs out.
-/

namespace Migrate

/-! ## Documents -/

/-- Values carried by a document field.  The BSON codec (db/jsobj.h) is outside
the sources at hand; three kinds of value are enough for the migration code,
which only moves values around and never inspects them. -/
inductive BSONValue where
  | null
  | int (n : Int)
  | str (s : String)
  deriving DecidableEq, Repr

/-- A field: name and value (`BSONElement`).  An absent element (`eoo()`) is
rendered as `none` where an element is looked up. -/
abbrev BSONElement := String × BSONValue

/-- A document: its fields in order (`BSONObj`). -/
abbrev BSONObj := List BSONElement

/-- The local collection being migrated: its documents. -/
abbrev Store := List BSONObj

/-- Lookup of a field by name, `obj.getField(name)` and `obj[name]`;
`none` is the `eoo()` element. -/
def getField (o : BSONObj) (name : String) : Option BSONElement :=
  o.find? (fun e => e.1 == name)

/-- The document made of one element, `ide.wrap()`. -/
def wrap (e : BSONElement) : BSONObj := [e]

/-- Character `i` of a C string; reading the terminator gives NUL. -/
def charAt (s : String) (i : Nat) : Char :=
  (s.data.get? i).getD (Char.ofNat 0)

/-- The collaborators of the migration code that are declared outside the two
source files: the codec's size and ordering of documents, the storage helpers
on the local collection, and the shard registry. -/
structure Externals where
  /-- Encoded size in bytes, `BSONObj::objsize()`. -/
  objsize : BSONObj → Nat
  /-- Three-way comparison, `a.woCompare(b)`: negative, zero or positive. -/
  woCompare : BSONObj → BSONObj → Int
  /-- Projection on the fields of a pattern, `it.extractFields(pattern, true)`. -/
  extractFields : BSONObj → BSONObj → BSONObj
  /-- Read of a live document by id, `Helpers::findById(cc(), ns, query, result)`. -/
  findById : Store → BSONObj → Option BSONObj
  /-- Insert or replace by id, `Helpers::upsert(ns, o)`. -/
  upsert : Store → BSONObj → Store
  /-- Removal of the documents of a key range with their count,
  `Helpers::removeRange(ns, min, max, true)`. -/
  removeRange : Store → BSONObj → BSONObj → Store × Nat
  /-- Name of the shard registered under an address, `Shard(addr).getName()`. -/
  shardName : String → String

/-! ## Donor side: `MigrateFromStatus` -/

/-- The donor's capture state (class `MigrateFromStatus`). -/
structure MigrateFromStatus where
  inCriticalSection : Bool
  active : Bool
  ns : String
  min : BSONObj
  max : BSONObj
  reload : List BSONObj
  deleted : List BSONObj
  deriving DecidableEq, Repr

/-- The state built by the constructor `MigrateFromStatus()`. -/
def MigrateFromStatus.init : MigrateFromStatus :=
  { inCriticalSection := false, active := false, ns := "", min := [], max := [],
    reload := [], deleted := [] }

/-- Body of `MigrateFromStatus::start`; `none` when one of its assertions fails. -/
def start (s : MigrateFromStatus) (ns : String) (min max : BSONObj) :
    Option MigrateFromStatus :=
  if s.active = true then none
  else if min = [] then none
  else if max = [] then none
  else if ns.length = 0 then none
  else some { s with ns := ns, min := min, max := max, deleted := [], reload := [],
                     active := true }

/-- Body of `MigrateFromStatus::done`. -/
def done (s : MigrateFromStatus) : MigrateFromStatus :=
  if s.active = false then s
  else { s with active := false, inCriticalSection := false, deleted := [], reload := [] }

/-- The identity element chosen by `logOp` (the `if ( patt ) ... else ...` on
`ide`): the `_id` of the match predicate when a predicate is passed, otherwise
the `_id` of the document. -/
def logOpId (obj : BSONObj) (patt : Option BSONObj) : Option BSONElement :=
  match patt with
  | some p => getField p "_id"
  | none => getField obj "_id"

/-- Body of `MigrateFromStatus::logOp`.  `patt` is the optional match predicate
(a null pointer is `none`); `store` is the local collection read by `findById`. -/
def logOp (env : Externals) (store : Store) (s : MigrateFromStatus)
    (opstr : String) (ns : String) (obj : BSONObj) (patt : Option BSONObj) :
    MigrateFromStatus :=
  if s.active = false then s
  else if s.ns ≠ ns then s
  else
    let op := charAt opstr 0
    if op = 'n' ∨ op = 'c' ∨ (op = 'd' ∧ charAt opstr 1 = 'b') then s
    else
      match logOpId obj patt with
      | none => s
      | some ide =>
        if op = 'd' then { s with deleted := s.deleted ++ [wrap ide] }
        else
          let cand : Option BSONObj :=
            if op = 'i' then some obj
            else if op = 'u' then env.findById store (wrap ide)
            else some []
          match cand with
          | none => s
          | some it =>
            let k := env.extractFields it s.min
            if env.woCompare k s.min < 0 ∨ env.woCompare k s.max ≥ 0 then s
            else { s with reload := s.reload ++ [wrap ide] }

/-- The byte budget of one batch, `static long long maxSize = 1024 * 1024`. -/
def maxSize : Nat := 1024 * 1024

/-- The `while` loop of `MigrateFromStatus::xfer`: the queue from the iterator
on, the array built so far and the running size; returns what is left of the
queue, the array and the size.  The running size is a `long long`; it is below
`maxSize` before each addition, so it cannot overflow. -/
def xferLoop (env : Externals) (store : Store) (explode : Bool) :
    List BSONObj → List BSONObj → Nat → List BSONObj × List BSONObj × Nat
  | [], arr, size => ([], arr, size)
  | t :: rest, arr, size =>
    if size < maxSize then
      let arr1 :=
        if explode = true then
          match env.findById store t with
          | some it => arr ++ [it]
          | none => arr
        else arr ++ [t]
      xferLoop env store explode rest arr1 (size + env.objsize t)
    else (t :: rest, arr, size)

/-- Body of `MigrateFromStatus::xfer`: returns the queue afterwards, the array
appended to the builder under `name` (`none` when no array is started) and the
running size. -/
def xfer (env : Externals) (store : Store) (l : List BSONObj) (size : Nat)
    (explode : Bool) : List BSONObj × Option (List BSONObj) × Nat :=
  if l.length = 0 ∨ size > maxSize then (l, none, size)
  else
    let r := xferLoop env store explode l [] size
    (r.1, some r.2.1, r.2.2)

/-- The reply built by `transferMods`: the arrays under "deleted" and "reload"
(absent when `xfer` started none) and the number under "size". -/
structure ModsBatch where
  deleted : Option (List BSONObj)
  reload : Option (List BSONObj)
  size : Nat
  deriving DecidableEq, Repr

/-- What `transferMods` hands back: its boolean, the error message, the reply
and the donor state afterwards. -/
structure TransferResult where
  ok : Bool
  errmsg : String
  batch : ModsBatch
  state : MigrateFromStatus
  deriving DecidableEq, Repr

/-- Body of `MigrateFromStatus::transferMods`. -/
def transferMods (env : Externals) (store : Store) (s : MigrateFromStatus) :
    TransferResult :=
  if s.active = false then
    { ok := false, errmsg := "no active migration!",
      batch := { deleted := none, reload := none, size := 0 }, state := s }
  else
    let d := xfer env store s.deleted 0 false
    let r := xfer env store s.reload d.2.2 true
    { ok := true, errmsg := "",
      batch := { deleted := d.2.1, reload := r.2.1, size := r.2.2 },
      state := { s with deleted := d.1, reload := r.1 } }

/-! ## Recipient side: `MigrateStatus::apply` -/

/-- Body of `MigrateStatus::apply` on the recipient's local collection.  A reply
carrying a "deleted" array runs into `assert(0)` (marked TODO in the source),
which throws: `none`.  Otherwise each document of "reload" is upserted. -/
def apply (env : Externals) (store : Store) (xfer : ModsBatch) : Option Store :=
  if xfer.deleted.isSome = true then none
  else
    match xfer.reload with
    | some docs => some (docs.foldl env.upsert store)
    | none => some store

/-- The test that ends the CATCHUP loop of `MigrateStatus::_go`:
`if ( res["size"].number() == 0 ) break;`. -/
def catchupStops (res : ModsBatch) : Bool := res.size == 0

/-! ## The `moveChunk` coordinator -/

/-- A chunk ownership record of the config store (collection `chunks`). -/
structure ChunkRecord where
  id : BSONValue
  ns : String
  min : BSONObj
  max : BSONObj
  shard : String
  lastmod : Nat
  deriving DecidableEq, Repr

/-- The record with the highest `lastmod` (the first such in storage order). -/
def highestLastmod : List ChunkRecord → Option ChunkRecord
  | [] => none
  | c :: cs =>
    match highestLastmod cs with
    | none => some c
    | some d => if c.lastmod < d.lastmod then some d else some c

/-- Modelled from the spec: the config-store query
`findOne( chunk , Query( filter ).sort( lastmod : -1 ) )`, whose client code
is outside the sources: among the records passing the filter, the one with
the highest `lastmod`. -/
def findOneSorted (chunks : List ChunkRecord) (p : ChunkRecord → Bool) :
    Option ChunkRecord :=
  highestLastmod (chunks.filter p)

/-- Modelled from the spec: the config-store write
`update( chunk , query , $set ... )`, whose client code is outside the
sources: the first record matching the query is changed, the others are
untouched (the update is neither multi nor upsert). -/
def updateFirst (p : ChunkRecord → Bool) (f : ChunkRecord → ChunkRecord) :
    List ChunkRecord → List ChunkRecord
  | [] => []
  | c :: cs => if p c = true then f c :: cs else c :: updateFirst p f cs

/-- Modelled from the spec: `shardingState.getVersion( ns )`, the donor's
in-memory ownership version of a collection; a collection never set reads 0.
Versions (`ShardChunkVersion`, declared outside the sources) are natural
numbers, and `++` adds one, the spec's `myVersion = maxVersion + 1`. -/
def getVersion (versions : List (String × Nat)) (ns : String) : Nat :=
  ((versions.find? (fun e => e.1 == ns)).map (fun e => e.2)).getD 0

/-- Modelled from the spec: `shardingState.setVersion( ns , v )`. -/
def setVersion (versions : List (String × Nat)) (ns : String) (v : Nat) :
    List (String × Nat) :=
  (ns, v) :: versions.filter (fun e => e.1 != ns)

/-- The arguments of the `moveChunk` command after parsing (`cmdObj`); an absent
`shardId` or `configdb` element is `none`. -/
structure MoveChunkRequest where
  ns : String
  toAddr : String
  fromAddr : String
  min : BSONObj
  max : BSONObj
  shardId : Option BSONValue
  configdb : Option String
  deriving DecidableEq, Repr

/-- What the rest of the cluster answers during one `moveChunk`: whether the
distributed lock was obtained (and the holder's record otherwise), and the
replies of the recipient to `_recvChunkStart`, to the i-th `_recvChunkStatus`
poll (its `state` string, `none` when the reply has no such string) and to
`_recvChunkCommit`. -/
structure Remote where
  lockGot : Bool
  lockOther : BSONObj
  startOk : Bool
  startErrmsg : Option String
  status : Nat → Option String
  commitOk : Bool

/-- The state `moveChunk` works on: the donor's capture state, its sharding
state, the `chunks` collection of the config store, the config change log and
the local collection.  `sent` and `enteredCritical` are a record of what the
run did (commands sent to the recipient; whether `_inCriticalSection` was
raised), kept for stating properties. -/
structure World where
  migrateFromStatus : MigrateFromStatus
  shardingEnabled : Bool
  versions : List (String × Nat)
  chunks : List ChunkRecord
  changelog : List (String × String)
  store : Store
  sent : List String
  enteredCritical : Bool
  deriving DecidableEq, Repr

/-- How `MoveChunkCommand::run` ends: `return true` with `numDeleted`,
`return false` with `errmsg`, or an exception leaving the function. -/
inductive Outcome where
  | ok (numDeleted : Nat)
  | failed (errmsg : String)
  | threw (what : String)
  deriving DecidableEq, Repr

/-- Step 4 of `run`: the loop `for ( int i=0; i<86400; i++ )` polling
`_recvChunkStatus`, from poll `i` with `n` iterations left.  `some true`: left
by `break` on "steady"; `some false`: the loop ran out; `none`:
`res["state"].String()` threw on a reply without a `state` string. -/
def waitSteady (status : Nat → Option String) : Nat → Nat → Option Bool
  | _, 0 => some false
  | i, n + 1 =>
    match status i with
    | none => none
    | some st => if st = "steady" then some true else waitSteady status (i + 1) n

/-- Step 5.c of `run`, on the `chunks` collection and the in-memory versions:
the moved chunk gets `shard = to` and `lastmod = myVersion`; then the chunk of
`ns` with the highest `lastmod` still owned by `myOldShard`, if there is one,
is bumped to `myVersion + 1`, which becomes the in-memory version; with none
left the in-memory version is set to 0. -/
def commitConfig (env : Externals) (req : MoveChunkRequest) (shardId : BSONValue)
    (myVersion : Nat) (myOldShard : String) (chunks : List ChunkRecord)
    (versions : List (String × Nat)) : List ChunkRecord × List (String × Nat) :=
  let chunks1 := updateFirst (fun c => c.id == shardId)
    (fun c => { c with shard := env.shardName req.toAddr, lastmod := myVersion }) chunks
  match findOneSorted chunks1 (fun c => c.ns == req.ns && c.shard == myOldShard) with
  | some x =>
    let myVersion2 := myVersion + 1
    (updateFirst (fun c => c.id == x.id) (fun c => { c with lastmod := myVersion2 }) chunks1,
      setVersion versions req.ns myVersion2)
  | none => (chunks1, setVersion versions req.ns 0)

/-- Steps 5 to 7 of `run`: what follows the polling loop. -/
def moveChunkCommit (env : Externals) (rem : Remote) (req : MoveChunkRequest)
    (shardId : BSONValue) (maxVersion : Nat) (myOldShard : String) (w1 : World) :
    Outcome × World :=
  -- 5.a
  let w2 := { w1 with
    migrateFromStatus := { w1.migrateFromStatus with inCriticalSection := true },
    enteredCritical := true }
  let myVersion := maxVersion + 1
  if ¬ (myVersion > getVersion w2.versions req.ns) then
    (Outcome.threw "assert( myVersion > shardingState.getVersion( ns ) )", w2)
  else
    let w3 := { w2 with versions := setVersion w2.versions req.ns myVersion }
    if ¬ (myVersion = getVersion w3.versions req.ns) then
      (Outcome.threw "assert( myVersion == shardingState.getVersion( ns ) )", w3)
    else
      -- 5.b
      let w4 := { w3 with sent := w3.sent ++ ["_recvChunkCommit"] }
      if rem.commitOk = false then (Outcome.failed "_recvChunkCommit failed!", w4)
      else
        -- 5.c
        let cc := commitConfig env req shardId myVersion myOldShard w4.chunks w4.versions
        -- 5.d
        let w6 := { w4 with
          chunks := cc.1, versions := cc.2,
          migrateFromStatus := { w4.migrateFromStatus with inCriticalSection := false },
          changelog := w4.changelog ++ [("moveChunk", req.ns)] }
        let w7 := { w6 with migrateFromStatus := done w6.migrateFromStatus }
        -- 7
        let rr := env.removeRange w7.store req.min req.max
        (Outcome.ok rr.2, { w7 with store := rr.1 })

/-- Steps 3 (the `_recvChunkStart` call) to 7 of `run`, from the construction of
`statusHolder` on, without the destructor of `statusHolder`.  The loop of step
4 is followed by step 5 whether it was left by `break` or ran out. -/
def moveChunkBody (env : Externals) (rem : Remote) (req : MoveChunkRequest)
    (shardId : BSONValue) (maxVersion : Nat) (myOldShard : String) (w : World) :
    Outcome × World :=
  let w1 := { w with sent := w.sent ++ ["_recvChunkStart"] }
  if rem.startOk = false then
    match rem.startErrmsg with
    | none => (Outcome.threw "errmsg is not a string", w1)
    | some e => (Outcome.failed ("_recvChunkStart failed: " ++ e), w1)
  else
    match waitSteady rem.status 0 86400 with
    | none => (Outcome.threw "state is not a string", w1)
    | some _ => moveChunkCommit env rem req shardId maxVersion myOldShard w1

/-- The highest `lastmod` of a collection as read by the sanity check of `run`
(0 when the collection has no chunk: an absent element reads as version 0). -/
def readMaxVersion (chunks : List ChunkRecord) (ns : String) : Nat :=
  ((findOneSorted chunks (fun c => c.ns == ns)).map (fun c => c.lastmod)).getD 0

/-- Body of `MoveChunkCommand::run`.  The request fields are taken as already
typed; failures of the network layer are not represented.  The destructor of
`statusHolder` (`migrateFromStatus.done()`) runs on every exit after its
construction. -/
def moveChunk (env : Externals) (rem : Remote) (req : MoveChunkRequest) (w : World) :
    Outcome × World :=
  if req.ns = "" then (Outcome.failed "need to specify namespace in command", w)
  else if req.toAddr = "" then (Outcome.failed "need to specify server to move shard to", w)
  else if req.fromAddr = "" then
    (Outcome.failed "need to specify server to move shard from (redundat i know)", w)
  else if req.min = [] then (Outcome.failed "need to specify a min", w)
  else if req.max = [] then (Outcome.failed "need to specify a max", w)
  else
    match req.shardId with
    | none => (Outcome.failed "need shardId", w)
    | some shardId =>
      if w.shardingEnabled = false ∧ req.configdb = none then
        (Outcome.failed "sharding not enabled", w)
      else
        let w0 := { w with shardingEnabled := true }
        -- 2.
        if rem.lockGot = false then (Outcome.failed "someone else has the lock", w0)
        else
          let maxVersion := readMaxVersion w0.chunks req.ns
          match w0.chunks.find? (fun c => c.id == shardId) with
          | none => (Outcome.threw "shard is not a string", w0)
          | some x =>
            let myOldShard := x.shard
            if myOldShard ≠ env.shardName req.fromAddr then
              (Outcome.failed "i'm out of date", w0)
            else if maxVersion < getVersion w0.versions req.ns then
              (Outcome.failed "official version less than mine?", w0)
            else
              -- 3.
              match start w0.migrateFromStatus req.ns req.min req.max with
              | none => (Outcome.threw "assert in MigrateFromStatus::start", w0)
              | some m =>
                let r := moveChunkBody env rem req shardId maxVersion myOldShard
                  { w0 with migrateFromStatus := m }
                (r.1, { r.2 with migrateFromStatus := done r.2.migrateFromStatus })

/-! ## Recipient side: the `MigrateStatus` state machine -/

/-- The states of the recipient, `enum State` of `MigrateStatus`. -/
inductive State where
  | READY
  | CLONE
  | CATCHUP
  | STEADY
  | COMMIT_START
  | DONE
  | FAIL
  deriving DecidableEq, Repr

/-- The recipient's migration state (class `MigrateStatus`); `fromAddr` is the
member `from`. -/
structure MigrateStatus where
  active : Bool
  ns : String
  fromAddr : String
  min : BSONObj
  max : BSONObj
  numCloned : Nat
  numCatchup : Nat
  numSteady : Nat
  state : State
  errmsg : String
  deriving DecidableEq, Repr

/-- The global `migrateStatus` after its constructor: `active = false`, the
other members zero-initialised. -/
def MigrateStatus.init : MigrateStatus :=
  { active := false, ns := "", fromAddr := "", min := [], max := [], numCloned := 0,
    numCatchup := 0, numSteady := 0, state := State.READY, errmsg := "" }

/-- Body of `MigrateStatus::prepare`; `none` when `assert( ! active )` fails. -/
def prepare (ms : MigrateStatus) : Option MigrateStatus :=
  if ms.active = true then none
  else some { ms with state := State.READY, errmsg := "", numCloned := 0, numCatchup := 0,
                      numSteady := 0, active := true }

/-- The arguments of `_recvChunkStart` after parsing. -/
structure RecvChunkStartRequest where
  ns : String
  fromAddr : String
  min : BSONObj
  max : BSONObj
  deriving DecidableEq, Repr

/-- What `RecvChunkStartCommand::run` hands back: its boolean, the error
message, the `started` field of the reply, whether the worker thread was
spawned, and the recipient state when it returns. -/
structure StartResult where
  ok : Bool
  errmsg : String
  started : Bool
  spawned : Bool
  status : MigrateStatus
  deriving DecidableEq, Repr

/-- Body of `RecvChunkStartCommand::run`, up to its return (the worker thread it
spawns runs `go` afterwards); `none` when the assertion of `prepare` fails. -/
def recvChunkStart (ms : MigrateStatus) (cmd : RecvChunkStartRequest) : Option StartResult :=
  if ms.active = true then
    some { ok := false, errmsg := "migrate already in progress", started := false,
           spawned := false, status := ms }
  else
    match prepare ms with
    | none => none
    | some p =>
      some { ok := true, errmsg := "", started := true, spawned := true,
             status := { p with ns := cmd.ns, fromAddr := cmd.fromAddr, min := cmd.min,
                                max := cmd.max } }

/-- The recipient process as the worker sees it: the migration state, the local
collection and the index catalogue.  `history` records the successive values
given to `state` during the run, kept for stating properties. -/
structure Recipient where
  status : MigrateStatus
  store : Store
  indexes : List BSONObj
  history : List State
  deriving DecidableEq, Repr

/-- A reply to `_transferMods` as the worker receives it: the command succeeded
with a batch, or `runCommand` returned false with a reply of the given text. -/
inductive ModsReply where
  | ok (batch : ModsBatch)
  | failed (text : String)
  deriving DecidableEq, Repr

/-- What the donor and the other threads of the recipient present to one run of
the worker: whether the connection to the donor works, the documents of the
range query and whether the cursor throws after them, the index catalogue
(`none` when fetching it throws), the reply to the k-th `_transferMods`, and
whether `startCommit` has advanced `state` to COMMIT_START by the time the
j-th iteration of the STEADY loop tests it. -/
structure DonorFeed where
  connectOk : Bool
  cloneDocs : List BSONObj
  cloneThrows : Bool
  indexes : Option (List BSONObj)
  mods : Nat → ModsReply
  commitSeen : Nat → Bool

/-- How the CATCHUP loop of `_go` ends: left by `break` on size 0 (with the
number of `_transferMods` calls made), or by an exception. -/
inductive CatchupExit where
  | left (store : Store) (calls : Nat)
  | threw (what : String) (store : Store)
  deriving DecidableEq, Repr

/-- The CATCHUP loop of `_go` (`while ( true )`), with `fuel` iterations allowed
and `k` calls of `_transferMods` made so far; `none` when the loop has not
ended within the fuel. -/
def catchupLoop (env : Externals) (feed : DonorFeed) :
    Nat → Nat → Store → Option CatchupExit
  | 0, _, _ => none
  | fuel + 1, k, store =>
    match feed.mods k with
    | ModsReply.failed _ =>
      some (CatchupExit.threw "assert( conn->runCommand( _transferMods ) )" store)
    | ModsReply.ok res =>
      if catchupStops res = true then some (CatchupExit.left store (k + 1))
      else
        match apply env store res with
        | none => some (CatchupExit.threw "assert( 0 )" store)
        | some store1 => catchupLoop env feed fuel (k + 1) store1

/-- How the STEADY loop of `_go` ends: by `break` once COMMIT_START is seen, by
the `return` after a failed `_transferMods`, or by an exception. -/
inductive SteadyExit where
  | committed (store : Store)
  | failed (text : String) (store : Store)
  | threw (what : String) (store : Store)
  deriving DecidableEq, Repr

/-- The STEADY loop of `_go`, with `fuel` iterations allowed, `k` calls of
`_transferMods` made so far and `j` iterations done; `none` when the loop has
not ended within the fuel.  Only `startCommit` writes `state` besides the
worker, and it turns STEADY into COMMIT_START, so the loop condition
`state == STEADY || state == COMMIT_START` holds at every test. -/
def steadyLoop (env : Externals) (feed : DonorFeed) :
    Nat → Nat → Nat → Store → Option SteadyExit
  | 0, _, _, _ => none
  | fuel + 1, k, j, store =>
    match feed.mods k with
    | ModsReply.failed text => some (SteadyExit.failed text store)
    | ModsReply.ok res =>
      match (if res.size > 0 then apply env store res else some store) with
      | none => some (SteadyExit.threw "assert( 0 )" store)
      | some store1 =>
        if feed.commitSeen j = true then some (SteadyExit.committed store1)
        else steadyLoop env feed fuel (k + 1) (j + 1) store1

/-- An assignment to `state`, recorded in the history. -/
def setState (r : Recipient) (st : State) : Recipient :=
  { r with status := { r.status with state := st }, history := r.history ++ [st] }

/-- How `_go` is left: by running to its end, by the `return` after a failed
`_transferMods` in STEADY, or by an exception. -/
inductive GoExit where
  | finished
  | steadyFailed
  | threw (what : String)
  deriving DecidableEq, Repr

/-- Body of `MigrateStatus::_go`; `none` when one of its two unbounded loops has
not ended within the fuel. -/
def _go (env : Externals) (feed : DonorFeed) (fuel : Nat) (r : Recipient) :
    Option (GoExit × Recipient) :=
  if r.status.active = false then some (GoExit.threw "assert( active )", r)
  else if r.status.state ≠ State.READY then some (GoExit.threw "assert( state == READY )", r)
  else if r.status.min = [] then some (GoExit.threw "assert( ! min.isEmpty() )", r)
  else if r.status.max = [] then some (GoExit.threw "assert( ! max.isEmpty() )", r)
  else if feed.connectOk = false then some (GoExit.threw "connection to donor", r)
  else
    let r1 := setState r State.CLONE
    let r2 := { r1 with
      store := feed.cloneDocs.foldl env.upsert r1.store,
      status := { r1.status with numCloned := r1.status.numCloned + feed.cloneDocs.length } }
    if feed.cloneThrows = true then some (GoExit.threw "clone cursor", r2)
    else
      match feed.indexes with
      | none => some (GoExit.threw "getIndexes", r2)
      | some idx =>
        let r3 := { r2 with indexes := r2.indexes ++ idx }
        let r4 := setState r3 State.CATCHUP
        match catchupLoop env feed fuel 0 r4.store with
        | none => none
        | some (CatchupExit.threw what store) =>
          some (GoExit.threw what, { r4 with store := store })
        | some (CatchupExit.left store k) =>
          let r5 := setState { r4 with store := store } State.STEADY
          match steadyLoop env feed fuel k 0 r5.store with
          | none => none
          | some (SteadyExit.threw what store1) =>
            some (GoExit.threw what, { r5 with store := store1 })
          | some (SteadyExit.failed text store1) =>
            some (GoExit.steadyFailed,
              setState { r5 with store := store1,
                                 status := { r5.status with errmsg := text } } State.FAIL)
          | some (SteadyExit.committed store1) =>
            some (GoExit.finished,
              setState (setState { r5 with store := store1 } State.COMMIT_START) State.DONE)

/-- Body of `MigrateStatus::go`: `_go` with its exceptions caught; `none` when
`_go` has not ended within the fuel. -/
def go (env : Externals) (feed : DonorFeed) (fuel : Nat) (r : Recipient) :
    Option Recipient :=
  match _go env feed fuel r with
  | none => none
  | some (GoExit.threw what, r1) =>
    let r2 := setState r1 State.FAIL
    some { r2 with status := { r2.status with errmsg := what, active := false } }
  | some (_, r1) => some { r1 with status := { r1.status with active := false } }

/-- The polling loop of `startCommit`, `for ( int i=0; i<86400; i++ )` with a
sleep of one millisecond, from poll `i` with `n` iterations left: whether
DONE was seen.  `observe i` is the value of `state` read at poll `i`. -/
def pollDone (observe : Nat → State) : Nat → Nat → Bool
  | _, 0 => false
  | i, n + 1 => if observe i = State.DONE then true else pollDone observe (i + 1) n

/-- Body of `MigrateStatus::startCommit`: its boolean and the recipient state as
`startCommit` itself leaves it (the later values of `state` are written by
the worker and read through `observe`). -/
def startCommit (ms : MigrateStatus) (observe : Nat → State) : Bool × MigrateStatus :=
  if ms.state ≠ State.STEADY then (false, ms)
  else (pollDone observe 0 86400, { ms with state := State.COMMIT_START })

/-! ## The scoped lock holder `dist_lock_try` (client/distlock.h) -/

/-- A holder object (class `dist_lock_try`): `lock` is the `DistributedLock` that
`_lock` points to, by number (`none` for NULL), `got` and `other` are `_got`
and `_other`. -/
structure dist_lock_try where
  lock : Option Nat
  got : Bool
  other : BSONObj
  deriving DecidableEq, Repr

/-- The holder objects of a program, by address (`none` once destroyed), with
the record of the successful `lock_try` calls and of the `unlock` calls, each
by the number of the lock concerned. -/
structure LockWorld where
  holders : List (Option dist_lock_try)
  acquired : List Nat
  unlocked : List Nat
  deriving DecidableEq, Repr

/-- What a program does with holders: `dist_lock_try( lock , why )`, where
`lock_try` answers `granted` and fills `other`; the default constructor; the
copy constructor from the holder at `src`; the assignment `dst = src`; the
destructor of the holder at `i`. -/
inductive HolderOp where
  | construct (lock : Nat) (granted : Bool) (other : BSONObj)
  | constructDefault
  | copy (src : Nat)
  | assign (dst src : Nat)
  | destroy (i : Nat)
  deriving DecidableEq, Repr

/-- The live holder at an address. -/
def getHolder (w : LockWorld) (i : Nat) : Option dist_lock_try :=
  (w.holders.get? i).bind (fun h => h)

/-- One operation on holders, after the bodies of the constructors, of
`operator=` and of the destructor of `dist_lock_try`.  An operation on an
address without a live holder does nothing. -/
def stepHolder (w : LockWorld) : HolderOp → LockWorld
  | HolderOp.construct lock granted other =>
    { w with
      holders := w.holders ++ [some { lock := some lock, got := granted, other := other }],
      acquired := if granted = true then w.acquired ++ [lock] else w.acquired }
  | HolderOp.constructDefault =>
    { w with holders := w.holders ++ [some { lock := none, got := false, other := [] }] }
  | HolderOp.copy src =>
    match getHolder w src with
    | none => w
    | some that =>
      { w with
        holders := (w.holders.set src (some { that with got := false, lock := none })) ++
          [some { lock := that.lock, got := that.got, other := that.other }] }
  | HolderOp.assign dst src =>
    if dst = src then w
    else
      match getHolder w dst, getHolder w src with
      | some _, some that =>
        { w with
          holders :=
            (w.holders.set dst (some { lock := that.lock, got := that.got, other := that.other })).set
              src (some { that with got := false, lock := none }) }
      | _, _ => w
  | HolderOp.destroy i =>
    match getHolder w i with
    | none => w
    | some h =>
      { w with
        holders := w.holders.set i none,
        unlocked :=
          if h.got = true then
            match h.lock with
            | some l => w.unlocked ++ [l]
            | none => w.unlocked
          else w.unlocked }

/-- A sequence of operations on holders, from a program without holders. -/
def runHolders (ops : List HolderOp) : LockWorld :=
  ops.foldl stepHolder { holders := [], acquired := [], unlocked := [] }

/-! ## A concrete instance of the collaborators -/

/-- Encoded size of a value: nothing for null, four bytes for a 32-bit
integer, length word plus bytes plus terminator for a string. -/
def valueSize : BSONValue → Nat
  | BSONValue.null => 0
  | BSONValue.int _ => 4
  | BSONValue.str s => 4 + s.length + 1

/-- Encoded size of a document: length word, the elements (type byte, name,
terminator, value) and the closing byte. -/
def bsonSize (o : BSONObj) : Nat :=
  4 + (o.map (fun e => 1 + e.1.length + 1 + valueSize e.2)).sum + 1

/-- Three-way comparison of values: null, then integers, then strings. -/
def cmpValue : BSONValue → BSONValue → Int
  | BSONValue.null, BSONValue.null => 0
  | BSONValue.null, _ => -1
  | _, BSONValue.null => 1
  | BSONValue.int a, BSONValue.int b => if a < b then -1 else if a = b then 0 else 1
  | BSONValue.int _, BSONValue.str _ => -1
  | BSONValue.str _, BSONValue.int _ => 1
  | BSONValue.str a, BSONValue.str b => if a < b then -1 else if a = b then 0 else 1

/-- Three-way comparison of documents, element by element on the values. -/
def cmpObj : BSONObj → BSONObj → Int
  | [], [] => 0
  | [], _ :: _ => -1
  | _ :: _, [] => 1
  | a :: as, b :: bs => if cmpValue a.2 b.2 ≠ 0 then cmpValue a.2 b.2 else cmpObj as bs

/-- Whether the key of a document lies in `[min, max)`. -/
def keyInRange (mn mx d : BSONObj) : Bool :=
  let k : BSONObj := mn.map (fun e => (e.1, ((getField d e.1).map (fun x => x.2)).getD BSONValue.null))
  decide (0 ≤ cmpObj k mn) && decide (cmpObj k mx < 0)

/-- A plain in-memory instance of the collaborators: documents compared field by
field, a collection kept as a list and keyed by `_id`, shards named by their
address. -/
def listExternals : Externals where
  objsize := bsonSize
  woCompare := cmpObj
  extractFields := fun it pattern =>
    pattern.map (fun e => (e.1, ((getField it e.1).map (fun x => x.2)).getD BSONValue.null))
  findById := fun store q => store.find? (fun d => getField d "_id" == getField q "_id")
  upsert := fun store o =>
    if store.any (fun d => getField d "_id" == getField o "_id") then
      store.map (fun d => if getField d "_id" == getField o "_id" then o else d)
    else store ++ [o]
  removeRange := fun store mn mx =>
    (store.filter (fun d => !keyInRange mn mx d), (store.filter (keyInRange mn mx)).length)
  shardName := fun addr => addr

/-- The identity as the specification words it: the `_id` of the match predicate
when the predicate provides one, and otherwise the `_id` of the document. -/
def claimedId (obj : BSONObj) (patt : Option BSONObj) : Option BSONElement :=
  match patt.bind (fun p => getField p "_id") with
  | some ide => some ide
  | none => getField obj "_id"

/-- An active donor state for the collection `test.foo` and the chunk
`[ k: 0 , k: 10 )`, with empty queues. -/
def fooDonor : MigrateFromStatus :=
  { inCriticalSection := false, active := true, ns := "test.foo",
    min := [("k", BSONValue.int 0)], max := [("k", BSONValue.int 10)],
    reload := [], deleted := [] }

/-- The wrapped id of a document whose `_id` is the one-character string "a";
its encoded size is 16 bytes. -/
def idA : BSONObj := wrap ("_id", BSONValue.str "a")

/-- An active donor state whose `deleted` queue holds 65537 entries of 16 bytes:
the first 65536 add up to exactly 1 MiB. -/
def fullQueueDonor : MigrateFromStatus :=
  { fooDonor with deleted := List.replicate 65536 idA ++ [idA] }

/-- What `xfer` appends to the array for the ids it removes: the ids themselves,
or with `explode` the live documents of those that are found. -/
def emitted (env : Externals) (store : Store) (explode : Bool) (removed : List BSONObj) :
    List BSONObj :=
  if explode = true then removed.filterMap (env.findById store) else removed

/-- The chunk `[ k: 0 , k: 10 )` of `test.foo`, owned by `shardA` at version 5. -/
def fooChunk : ChunkRecord :=
  { id := BSONValue.int 1, ns := "test.foo", min := [("k", BSONValue.int 0)],
    max := [("k", BSONValue.int 10)], shard := "shardA", lastmod := 5 }

/-- A donor `shardA` owning `fooChunk` and holding one document of it. -/
def fooWorld : World :=
  { migrateFromStatus := MigrateFromStatus.init, shardingEnabled := true,
    versions := [("test.foo", 5)], chunks := [fooChunk], changelog := [],
    store := [[("_id", BSONValue.int 5), ("k", BSONValue.int 3)]],
    sent := [], enteredCritical := false }

/-- The request to move `fooChunk` from `shardA` to `shardB`. -/
def fooRequest : MoveChunkRequest :=
  { ns := "test.foo", toAddr := "shardB", fromAddr := "shardA",
    min := [("k", BSONValue.int 0)], max := [("k", BSONValue.int 10)],
    shardId := some (BSONValue.int 1), configdb := none }

/-- A cluster in which the lock is free and the recipient accepts the start,
reports "steady" at every poll and commits. -/
def steadyRemote : Remote :=
  { lockGot := true, lockOther := [], startOk := true, startErrmsg := none,
    status := fun _ => some "steady", commitOk := true }

/-- A cluster in which the recipient reports "catchup" at every poll. -/
def catchupRemote : Remote :=
  { steadyRemote with status := fun _ => some "catchup" }

/-- A cluster in which the recipient answers `_recvChunkCommit` with failure. -/
def failingCommitRemote : Remote :=
  { steadyRemote with commitOk := false }

/-- The request to move `fooChunk` from `shardA` to `shardA` itself. -/
def selfRequest : MoveChunkRequest :=
  { fooRequest with toAddr := "shardA" }

/-- A second chunk of `test.foo` owned by `shardA`, at version 4. -/
def barChunk : ChunkRecord :=
  { id := BSONValue.int 2, ns := "test.foo", min := [("k", BSONValue.int 10)],
    max := [("k", BSONValue.int 20)], shard := "shardA", lastmod := 4 }

/-- The donor `shardA` owning both `fooChunk` and `barChunk`. -/
def twoChunkWorld : World :=
  { fooWorld with chunks := [fooChunk, barChunk] }

/-- A recipient collection holding the document with `_id` 7. -/
def recipientStore : Store := [[("_id", BSONValue.int 7), ("k", BSONValue.int 3)]]

/-- An active donor state with the id 7 queued in `deleted`. -/
def deleteQueuedDonor : MigrateFromStatus :=
  { fooDonor with deleted := [wrap ("_id", BSONValue.int 7)] }

/-- A cluster in which the recipient reports "catchup" at every poll and, not
being steady, answers `_recvChunkCommit` with failure. -/
def stuckRemote : Remote :=
  { catchupRemote with commitOk := false }

/-- The `_recvChunkStart` command for the chunk `[ k: 0 , k: 10 )` of `test.foo`,
to be pulled from `shardA`. -/
def fooStart : RecvChunkStartRequest :=
  { ns := "test.foo", fromAddr := "shardA", min := [("k", BSONValue.int 0)],
    max := [("k", BSONValue.int 10)] }

/-- The recipient state right after an accepted `_recvChunkStart`. -/
def preparedStatus : MigrateStatus :=
  { MigrateStatus.init with ns := "test.foo", fromAddr := "shardA",
                            min := [("k", BSONValue.int 0)], max := [("k", BSONValue.int 10)],
                            active := true }

/-- A recipient with an empty collection whose worker is about to run. -/
def preparedRecipient : Recipient :=
  { status := preparedStatus, store := [], indexes := [], history := [] }

/-- A donor holding one document of the range and no pending change, with the
commit requested as soon as the recipient is steady. -/
def quietFeed : DonorFeed :=
  { connectOk := true, cloneDocs := [[("_id", BSONValue.int 5), ("k", BSONValue.int 3)]],
    cloneThrows := false, indexes := some [],
    mods := fun _ => ModsReply.ok { deleted := none, reload := none, size := 0 },
    commitSeen := fun _ => true }

/-- A donor whose range query breaks off after the first document. -/
def brokenCloneFeed : DonorFeed :=
  { quietFeed with cloneThrows := true }

/-- A recipient state in STEADY. -/
def steadyStatus : MigrateStatus :=
  { preparedStatus with state := State.STEADY }

/-- A worker that reaches DONE only at poll 86,400 (the 86,401st). -/
def lateDone : Nat → State :=
  fun i => if i < 86400 then State.COMMIT_START else State.DONE

/-- A worker that has reached DONE by poll 3. -/
def promptDone : Nat → State :=
  fun i => if i < 3 then State.COMMIT_START else State.DONE

/-- The recipient after a worker run that went through to DONE. -/
def doneRecipient : Recipient :=
  { status := { preparedStatus with active := false, numCloned := 1, state := State.DONE },
    store := [[("_id", BSONValue.int 5), ("k", BSONValue.int 3)]], indexes := [],
    history := [State.CLONE, State.CATCHUP, State.STEADY, State.COMMIT_START, State.DONE] }

/-- The recipient after a worker run that failed during the clone. -/
def failedRecipient : Recipient :=
  { status := { preparedStatus with active := false, numCloned := 1, state := State.FAIL,
                                    errmsg := "clone cursor" },
    store := [[("_id", BSONValue.int 5), ("k", BSONValue.int 3)]], indexes := [],
    history := [State.CLONE, State.FAIL] }

/-- The request to move `barChunk` from `shardA` to `shardC`. -/
def barRequest : MoveChunkRequest :=
  { ns := "test.foo", toAddr := "shardC", fromAddr := "shardA",
    min := [("k", BSONValue.int 10)], max := [("k", BSONValue.int 20)],
    shardId := some (BSONValue.int 2), configdb := none }

/-- A donor whose first `_transferMods` reply is an empty batch and whose later
replies are failures with the text `{ ok: 0 }`. -/
def steadyFailFeed : DonorFeed :=
  { quietFeed with
    mods := fun k =>
      if k = 0 then ModsReply.ok { deleted := none, reload := none, size := 0 }
      else ModsReply.failed "{ ok: 0 }",
    commitSeen := fun _ => false }

/-! ## Theorems: write capture (`logOp`) -/

/-- The range test of `logOp` is the half-open interval test: the write is kept
exactly when `min <= k` and `k < max`. -/
theorem range_test_iff (a b : Int) : ¬ (a < 0 ∨ b ≥ 0) ↔ (0 ≤ a ∧ b < 0) := by
  constructor
  · intro h
    constructor
    · by_contra h1
      exact h (Or.inl (not_le.mp h1))
    · by_contra h1
      exact h (Or.inr (not_lt.mp h1))
  · rintro ⟨h1, h2⟩ h
    rcases h with h | h
    · exact absurd h1 (not_le.mpr h)
    · exact absurd h2 (not_lt.mpr h)

/-- Appending an entry changes a queue. -/
theorem append_singleton_ne {α : Type} (l : List α) (a : α) : l ++ [a] ≠ l := by
  intro h
  have := congrArg List.length h
  simp at this

/-- C1: on an active donor, for an insert or update on the migrating namespace
with identity `ide`, `logOp` appends `wrap ide` to the end of `reload` exactly
when the candidate (the inserted document, or the live document re-read by id)
exists and its projection `k` on the fields of `min` satisfies
`min <= k < max`; otherwise, and when the live document of an update is not
found, the state is unchanged.  `deleted` and the earlier entries of `reload`
never change. -/
theorem logOp_insert_update_reload (env : Externals) (store : Store)
    (s : MigrateFromStatus) (opstr ns : String) (obj : BSONObj)
    (patt : Option BSONObj) (ide : BSONElement)
    (hact : s.active = true) (hns : s.ns = ns)
    (hop : charAt opstr 0 = 'i' ∨ charAt opstr 0 = 'u')
    (hid : logOpId obj patt = some ide) :
    (((logOp env store s opstr ns obj patt).reload = s.reload ++ [wrap ide]) ↔
      ∃ it, (if charAt opstr 0 = 'i' then some obj else env.findById store (wrap ide)) = some it ∧
        0 ≤ env.woCompare (env.extractFields it s.min) s.min ∧
        env.woCompare (env.extractFields it s.min) s.max < 0) ∧
    (logOp env store s opstr ns obj patt = { s with reload := s.reload ++ [wrap ide] } ∨
      logOp env store s opstr ns obj patt = s) ∧
    (logOp env store s opstr ns obj patt).deleted = s.deleted ∧
    (charAt opstr 0 = 'u' → env.findById store (wrap ide) = none →
      logOp env store s opstr ns obj patt = s) := by
  have hn : charAt opstr 0 ≠ 'n' := by rcases hop with h | h <;> rw [h] <;> decide
  have hc : charAt opstr 0 ≠ 'c' := by rcases hop with h | h <;> rw [h] <;> decide
  have hd : charAt opstr 0 ≠ 'd' := by rcases hop with h | h <;> rw [h] <;> decide
  have hgate : ¬ (charAt opstr 0 = 'n' ∨ charAt opstr 0 = 'c' ∨
      (charAt opstr 0 = 'd' ∧ charAt opstr 1 = 'b')) := by
    rintro (h | h | ⟨h, _⟩)
    · exact hn h
    · exact hc h
    · exact hd h
  have hns2 : ¬ (s.ns ≠ ns) := fun h => h hns
  rcases hop with hi | hu
  · -- insert: the candidate is the document itself
    by_cases hr : env.woCompare (env.extractFields obj s.min) s.min < 0 ∨
        env.woCompare (env.extractFields obj s.min) s.max ≥ 0
    · have e : logOp env store s opstr ns obj patt = s := by
        simp [logOp, hact, hns2, hgate, hid, hd, hi, hr]
      rw [e]
      refine ⟨?_, Or.inr rfl, rfl, fun _ _ => rfl⟩
      constructor
      · intro h
        exact absurd h.symm (append_singleton_ne _ _)
      · rintro ⟨it, hit, h1, h2⟩
        simp only [hi, if_true, Option.some.injEq] at hit
        subst hit
        exact absurd hr ((range_test_iff _ _).mpr ⟨h1, h2⟩)
    · have e : logOp env store s opstr ns obj patt =
          { s with reload := s.reload ++ [wrap ide] } := by
        simp [logOp, hact, hns2, hgate, hid, hd, hi, hr]
      rw [e]
      refine ⟨?_, Or.inl rfl, rfl, ?_⟩
      · constructor
        · intro _
          refine ⟨obj, by simp [hi], ((range_test_iff _ _).mp hr)⟩
        · intro _
          rfl
      · intro h
        rw [hi] at h
        exact absurd h (by decide)
  · -- update: the candidate is the live document
    have hni : charAt opstr 0 ≠ 'i' := by rw [hu]; decide
    cases hf : env.findById store (wrap ide) with
    | none =>
      have e : logOp env store s opstr ns obj patt = s := by
        simp [logOp, hact, hns2, hgate, hid, hd, hni, hu, hf]
      rw [e]
      refine ⟨?_, Or.inr rfl, rfl, fun _ _ => rfl⟩
      constructor
      · intro h
        exact absurd h.symm (append_singleton_ne _ _)
      · rintro ⟨it, hit, _, _⟩
        simp [hni] at hit
    | some live =>
      by_cases hr : env.woCompare (env.extractFields live s.min) s.min < 0 ∨
          env.woCompare (env.extractFields live s.min) s.max ≥ 0
      · have e : logOp env store s opstr ns obj patt = s := by
          simp [logOp, hact, hns2, hgate, hid, hd, hni, hu, hf, hr]
        rw [e]
        refine ⟨?_, Or.inr rfl, rfl, fun _ h => absurd h (by simp)⟩
        constructor
        · intro h
          exact absurd h.symm (append_singleton_ne _ _)
        · rintro ⟨it, hit, h1, h2⟩
          simp only [hni, if_false, Option.some.injEq] at hit
          subst hit
          exact absurd hr ((range_test_iff _ _).mpr ⟨h1, h2⟩)
      · have e : logOp env store s opstr ns obj patt =
            { s with reload := s.reload ++ [wrap ide] } := by
          simp [logOp, hact, hns2, hgate, hid, hd, hni, hu, hf, hr]
        rw [e]
        refine ⟨?_, Or.inl rfl, rfl, fun _ h => absurd h (by simp)⟩
        constructor
        · intro _
          exact ⟨live, by simp [hni], ((range_test_iff _ _).mp hr)⟩
        · intro _
          rfl

/-- Witness for C1: an insert of a document with key 3 into the chunk
`[ k: 0 , k: 10 )` is captured under its id. -/
theorem logOp_insert_update_reload_witness :
    fooDonor.active = true ∧ fooDonor.ns = "test.foo" ∧
    logOpId [("_id", BSONValue.int 5), ("k", BSONValue.int 3)] none =
      some ("_id", BSONValue.int 5) ∧
    (logOp listExternals [] fooDonor "i" "test.foo"
        [("_id", BSONValue.int 5), ("k", BSONValue.int 3)] none).reload =
      fooDonor.reload ++ [wrap ("_id", BSONValue.int 5)] :=
  ⟨by decide, by decide, by decide,
    (logOp_insert_update_reload listExternals [] fooDonor "i" "test.foo"
      [("_id", BSONValue.int 5), ("k", BSONValue.int 3)] none ("_id", BSONValue.int 5)
      (by decide) (by decide) (by decide) (by decide)).1.mpr
      ⟨[("_id", BSONValue.int 5), ("k", BSONValue.int 3)], by decide, by decide, by decide⟩⟩

/-- On an active donor, a delete (other than `db`) on the migrating namespace
with identity `ide` is exactly the append of `wrap ide` to `deleted`. -/
theorem logOp_delete_eq (env : Externals) (store : Store)
    (s : MigrateFromStatus) (opstr ns : String) (obj : BSONObj)
    (patt : Option BSONObj) (ide : BSONElement)
    (hact : s.active = true) (hns : s.ns = ns)
    (hop : charAt opstr 0 = 'd') (hdb : charAt opstr 1 ≠ 'b')
    (hid : logOpId obj patt = some ide) :
    logOp env store s opstr ns obj patt = { s with deleted := s.deleted ++ [wrap ide] } := by
  simp [logOp, hact, hns, hid, hop, hdb]

/-- C7: on an active donor, a delete (other than the `db` no-op) on the
migrating namespace with identity `ide` appends `wrap ide` to the end of
`deleted`, for every document and every range (no range test is made), and
changes nothing else: `reload` and the earlier entries of `deleted` stay. -/
theorem logOp_delete_appends (env : Externals) (store : Store)
    (s : MigrateFromStatus) (opstr ns : String) (obj : BSONObj)
    (patt : Option BSONObj) (ide : BSONElement)
    (hact : s.active = true) (hns : s.ns = ns)
    (hop : charAt opstr 0 = 'd') (hdb : charAt opstr 1 ≠ 'b')
    (hid : logOpId obj patt = some ide) :
    logOp env store s opstr ns obj patt = { s with deleted := s.deleted ++ [wrap ide] } ∧
    (logOp env store s opstr ns obj patt).deleted = s.deleted ++ [wrap ide] ∧
    (logOp env store s opstr ns obj patt).reload = s.reload := by
  rw [logOp_delete_eq env store s opstr ns obj patt ide hact hns hop hdb hid]
  exact ⟨rfl, rfl, rfl⟩

/-- Witness for C7: the delete of a document whose key 50 lies outside the chunk
`[ k: 0 , k: 10 )` is queued all the same. -/
theorem logOp_delete_appends_witness :
    fooDonor.active = true ∧ fooDonor.ns = "test.foo" ∧
    charAt "d" 0 = 'd' ∧ charAt "d" 1 ≠ 'b' ∧
    (logOp listExternals [] fooDonor "d" "test.foo"
        [("_id", BSONValue.int 7), ("k", BSONValue.int 50)] none).deleted =
      fooDonor.deleted ++ [wrap ("_id", BSONValue.int 7)] :=
  ⟨by decide, by decide, by decide, by decide,
    (logOp_delete_appends listExternals [] fooDonor "d" "test.foo"
      [("_id", BSONValue.int 7), ("k", BSONValue.int 50)] none ("_id", BSONValue.int 7)
      (by decide) (by decide) (by decide) (by decide) (by decide)).2.1⟩

/-- C8, as stated, fails: an insert passed with a match predicate that has no
`_id`, for a document that carries `_id` 5 and lies in the chunk, has the
identity `_id: 5` by the claimed rule, yet `logOp` finds no identity and leaves
the donor state unchanged; the same insert passed without a predicate is
captured. -/
theorem logOp_identity_fallback_counterexample :
    claimedId [("_id", BSONValue.int 5), ("k", BSONValue.int 3)] (some [("x", BSONValue.int 1)]) =
      some ("_id", BSONValue.int 5) ∧
    logOpId [("_id", BSONValue.int 5), ("k", BSONValue.int 3)] (some [("x", BSONValue.int 1)]) =
      none ∧
    logOp listExternals [] fooDonor "i" "test.foo"
      [("_id", BSONValue.int 5), ("k", BSONValue.int 3)] (some [("x", BSONValue.int 1)]) =
      fooDonor ∧
    (logOp listExternals [] fooDonor "i" "test.foo"
      [("_id", BSONValue.int 5), ("k", BSONValue.int 3)] none).reload =
      [wrap ("_id", BSONValue.int 5)] := by
  decide

/-- C8 (amended): the identity `logOp` uses is read from the match predicate
whenever a predicate is passed, and from the document only when none is
passed.  A write passed with a predicate lacking `_id` is dropped with the
state unchanged, whatever the document carries; so is a write passed without
predicate whose document lacks `_id`.  When the chosen source has an `_id`,
every change `logOp` makes is the append of that wrapped `_id` to `deleted` or
to `reload`, and a delete (other than `db`) on the active migrating namespace
is queued under exactly that `_id`. -/
theorem logOp_identity_source (env : Externals) (store : Store)
    (s : MigrateFromStatus) (opstr ns : String) (obj : BSONObj) :
    (∀ p, getField p "_id" = none → logOp env store s opstr ns obj (some p) = s) ∧
    (getField obj "_id" = none → logOp env store s opstr ns obj none = s) ∧
    (∀ p ide, getField p "_id" = some ide →
      (logOp env store s opstr ns obj (some p) = s ∨
       logOp env store s opstr ns obj (some p) = { s with deleted := s.deleted ++ [wrap ide] } ∨
       logOp env store s opstr ns obj (some p) = { s with reload := s.reload ++ [wrap ide] }) ∧
      (s.active = true → s.ns = ns → charAt opstr 0 = 'd' → charAt opstr 1 ≠ 'b' →
       logOp env store s opstr ns obj (some p) = { s with deleted := s.deleted ++ [wrap ide] })) ∧
    (∀ ide, getField obj "_id" = some ide →
      (logOp env store s opstr ns obj none = s ∨
       logOp env store s opstr ns obj none = { s with deleted := s.deleted ++ [wrap ide] } ∨
       logOp env store s opstr ns obj none = { s with reload := s.reload ++ [wrap ide] }) ∧
      (s.active = true → s.ns = ns → charAt opstr 0 = 'd' → charAt opstr 1 ≠ 'b' →
       logOp env store s opstr ns obj none = { s with deleted := s.deleted ++ [wrap ide] })) := by
  have key : ∀ (patt : Option BSONObj) (ide : BSONElement), logOpId obj patt = some ide →
      (logOp env store s opstr ns obj patt = s ∨
       logOp env store s opstr ns obj patt = { s with deleted := s.deleted ++ [wrap ide] } ∨
       logOp env store s opstr ns obj patt = { s with reload := s.reload ++ [wrap ide] }) := by
    intro patt ide hid
    unfold logOp
    simp only [hid]
    split_ifs <;> try (first | exact Or.inl rfl | exact Or.inr (Or.inl rfl))
    all_goals
      split
      · exact Or.inl rfl
      · split_ifs
        · exact Or.inl rfl
        · exact Or.inr (Or.inr rfl)
  have none_case : ∀ (patt : Option BSONObj), logOpId obj patt = none →
      logOp env store s opstr ns obj patt = s := by
    intro patt hid
    unfold logOp
    simp only [hid]
    split_ifs <;> rfl
  refine ⟨fun p hp => none_case (some p) (by simpa [logOpId] using hp),
    fun h => none_case none (by simpa [logOpId] using h), ?_, ?_⟩
  · intro p ide hp
    have hid : logOpId obj (some p) = some ide := by simpa [logOpId] using hp
    exact ⟨key _ _ hid, fun ha hn ho hb =>
      logOp_delete_eq env store s opstr ns obj (some p) ide ha hn ho hb hid⟩
  · intro ide hp
    have hid : logOpId obj none = some ide := by simpa [logOpId] using hp
    exact ⟨key _ _ hid, fun ha hn ho hb =>
      logOp_delete_eq env store s opstr ns obj none ide ha hn ho hb hid⟩

/-- Witness for C8 (amended): the insert of a document carrying `_id` 5, passed
with a match predicate without `_id`, is dropped. -/
theorem logOp_identity_source_witness :
    getField [("x", BSONValue.int 1)] "_id" = none ∧
    logOp listExternals [] fooDonor "i" "test.foo"
      [("_id", BSONValue.int 5), ("k", BSONValue.int 3)] (some [("x", BSONValue.int 1)]) =
      fooDonor :=
  ⟨by decide,
    (logOp_identity_source listExternals [] fooDonor "i" "test.foo"
      [("_id", BSONValue.int 5), ("k", BSONValue.int 3)]).1 [("x", BSONValue.int 1)] (by decide)⟩

/-! ## Theorems: handing over the queues (`xfer`, `transferMods`) -/

/-- The loop of `xfer` removes a leading run of the queue, appends what it emits
for that run to the array, and adds the sizes of the removed ids to the total. -/
theorem xferLoop_spec (env : Externals) (store : Store) (explode : Bool) :
    ∀ (l arr : List BSONObj) (size : Nat),
      ∃ removed : List BSONObj,
        l = removed ++ (xferLoop env store explode l arr size).1 ∧
        (xferLoop env store explode l arr size).2.1 = arr ++ emitted env store explode removed ∧
        (xferLoop env store explode l arr size).2.2 = size + (removed.map env.objsize).sum ∧
        ((xferLoop env store explode l arr size).1 = [] ∨
          maxSize ≤ (xferLoop env store explode l arr size).2.2) ∧
        (l ≠ [] → size < maxSize → removed ≠ []) := by
  intro l
  induction l with
  | nil =>
    intro arr size
    refine ⟨[], ?_⟩
    simp [xferLoop, emitted]
  | cons t rest ih =>
    intro arr size
    by_cases hlt : size < maxSize
    · cases explode with
      | false =>
        obtain ⟨rem, h1, h2, h3, h4, _⟩ := ih (arr ++ [t]) (size + env.objsize t)
        refine ⟨t :: rem, ?_⟩
        simp only [xferLoop, hlt, if_true]
        simp only [Bool.false_eq_true, if_false] at h1 h2 h3 h4 ⊢
        refine ⟨?_, ?_, ?_, h4, fun _ _ => List.cons_ne_nil _ _⟩
        · rw [List.cons_append, ← h1]
        · rw [h2]
          simp [emitted]
        · rw [h3]
          simp [Nat.add_assoc]
      | true =>
        cases hf : env.findById store t with
        | none =>
          obtain ⟨rem, h1, h2, h3, h4, _⟩ := ih arr (size + env.objsize t)
          refine ⟨t :: rem, ?_⟩
          simp only [xferLoop, hlt, if_true, hf]
          refine ⟨?_, ?_, ?_, h4, fun _ _ => List.cons_ne_nil _ _⟩
          · rw [List.cons_append, ← h1]
          · rw [h2]
            simp [emitted, List.filterMap_cons, hf]
          · rw [h3]
            simp [Nat.add_assoc]
        | some it =>
          obtain ⟨rem, h1, h2, h3, h4, _⟩ := ih (arr ++ [it]) (size + env.objsize t)
          refine ⟨t :: rem, ?_⟩
          simp only [xferLoop, hlt, if_true, hf]
          refine ⟨?_, ?_, ?_, h4, fun _ _ => List.cons_ne_nil _ _⟩
          · rw [List.cons_append, ← h1]
          · rw [h2]
            simp [emitted, List.filterMap_cons, hf]
          · rw [h3]
            simp [Nat.add_assoc]
    · refine ⟨[], ?_⟩
      simp only [xferLoop, hlt, if_false]
      refine ⟨by simp, by simp [emitted], by simp, Or.inr (Nat.le_of_not_lt hlt), ?_⟩
      intro _ h
      exact False.elim h

/-- What `xfer` does to one queue: a leading run is removed, the array (when one
is started) holds what is emitted for that run, the total grows by the sizes
of the removed ids, and afterwards the queue is empty or the total has reached
`maxSize`.  When the queue is not empty and the total is below `maxSize` at
entry, at least one id is removed. -/
theorem xfer_spec (env : Externals) (store : Store) (explode : Bool)
    (l : List BSONObj) (size : Nat) :
    ∃ removed : List BSONObj,
      l = removed ++ (xfer env store l size explode).1 ∧
      ((xfer env store l size explode).2.1).getD [] = emitted env store explode removed ∧
      (xfer env store l size explode).2.2 = size + (removed.map env.objsize).sum ∧
      ((xfer env store l size explode).1 = [] ∨ maxSize ≤ (xfer env store l size explode).2.2) ∧
      (l ≠ [] → size < maxSize → removed ≠ []) := by
  by_cases h : l.length = 0 ∨ size > maxSize
  · refine ⟨[], ?_⟩
    simp only [xfer, h, if_true]
    refine ⟨by simp, by cases explode <;> simp [emitted], by simp, ?_, ?_⟩
    · rcases h with h | h
      · exact Or.inl (List.length_eq_zero.mp h)
      · exact Or.inr (Nat.le_of_lt h)
    · intro hne hlt
      rcases h with h | h
      · exact absurd (List.length_eq_zero.mp h) hne
      · exact absurd hlt (Nat.lt_asymm h)
  · obtain ⟨rem, h1, h2, h3, h4, h5⟩ := xferLoop_spec env store explode l [] size
    refine ⟨rem, ?_⟩
    simp only [xfer, h, if_false]
    refine ⟨h1, ?_, h3, h4, h5⟩
    simp [h2]

/-- The state and reply of `transferMods` on an active donor, in terms of the
two calls of `xfer`. -/
theorem transferMods_active (env : Externals) (store : Store) (s : MigrateFromStatus)
    (hact : s.active = true) :
    transferMods env store s =
      { ok := true, errmsg := "",
        batch := { deleted := (xfer env store s.deleted 0 false).2.1,
                   reload := (xfer env store s.reload
                     (xfer env store s.deleted 0 false).2.2 true).2.1,
                   size := (xfer env store s.reload
                     (xfer env store s.deleted 0 false).2.2 true).2.2 },
        state := { s with deleted := (xfer env store s.deleted 0 false).1,
                          reload := (xfer env store s.reload
                            (xfer env store s.deleted 0 false).2.2 true).1 } } := by
  simp [transferMods, hact]

/-- C2, as stated, fails: with one captured id in `reload` whose document is no
longer in the collection, `transferMods` empties `reload` and emits an empty
"reload" array: the id is removed without anything being emitted for it, so
the emitted array is not the live documents of the removed ids one for one. -/
theorem transferMods_reload_counterexample :
    (transferMods listExternals []
        { fooDonor with reload := [wrap ("_id", BSONValue.int 5)] }).state.reload = [] ∧
    (transferMods listExternals []
        { fooDonor with reload := [wrap ("_id", BSONValue.int 5)] }).batch.reload = some [] ∧
    ¬ ∃ removed : List BSONObj,
        [wrap ("_id", BSONValue.int 5)] = removed ++
          (transferMods listExternals []
            { fooDonor with reload := [wrap ("_id", BSONValue.int 5)] }).state.reload ∧
        List.Forall₂ (fun id doc => listExternals.findById [] id = some doc) removed
          (((transferMods listExternals []
            { fooDonor with reload := [wrap ("_id", BSONValue.int 5)] }).batch.reload).getD []) := by
  have h1 : (transferMods listExternals []
        { fooDonor with reload := [wrap ("_id", BSONValue.int 5)] }).state.reload = [] := by
    decide
  have h2 : (transferMods listExternals []
        { fooDonor with reload := [wrap ("_id", BSONValue.int 5)] }).batch.reload = some [] := by
    decide
  refine ⟨h1, h2, ?_⟩
  rintro ⟨removed, hr, hf⟩
  rw [h1, List.append_nil] at hr
  rw [h2, ← hr] at hf
  cases hf

/-- C2 (amended): on an active donor, `transferMods` removes a leading run from
each of `deleted` and `reload` and leaves the rest in its original order,
changing nothing else of the donor state; the emitted "deleted" array is the
removed run in order, and the emitted "reload" array is, in order, the live
document of each removed id that still has one (a removed id whose document
is not found emits nothing).  An array that is not started counts as empty. -/
theorem transferMods_drains (env : Externals) (store : Store) (s : MigrateFromStatus)
    (hact : s.active = true) :
    (transferMods env store s).ok = true ∧
    ∃ remD remR : List BSONObj,
      s.deleted = remD ++ (transferMods env store s).state.deleted ∧
      s.reload = remR ++ (transferMods env store s).state.reload ∧
      ((transferMods env store s).batch.deleted).getD [] = remD ∧
      ((transferMods env store s).batch.reload).getD [] =
        remR.filterMap (env.findById store) ∧
      (transferMods env store s).state =
        { s with deleted := (transferMods env store s).state.deleted,
                 reload := (transferMods env store s).state.reload } := by
  rw [transferMods_active env store s hact]
  obtain ⟨remD, d1, d2, _, _, _⟩ := xfer_spec env store false s.deleted 0
  obtain ⟨remR, r1, r2, _, _, _⟩ :=
    xfer_spec env store true s.reload (xfer env store s.deleted 0 false).2.2
  refine ⟨rfl, remD, remR, d1, r1, ?_, ?_, rfl⟩
  · simpa [emitted] using d2
  · simpa [emitted] using r2

/-- Witness for C2 (amended): one queued delete and one queued update of a
document still in the collection are both handed over. -/
theorem transferMods_drains_witness :
    ({ fooDonor with deleted := [wrap ("_id", BSONValue.int 7)],
                     reload := [wrap ("_id", BSONValue.int 5)] } : MigrateFromStatus).active = true ∧
    (transferMods listExternals [[("_id", BSONValue.int 5), ("k", BSONValue.int 3)]]
      { fooDonor with deleted := [wrap ("_id", BSONValue.int 7)],
                      reload := [wrap ("_id", BSONValue.int 5)] }).ok = true ∧
    (transferMods listExternals [[("_id", BSONValue.int 5), ("k", BSONValue.int 3)]]
      { fooDonor with deleted := [wrap ("_id", BSONValue.int 7)],
                      reload := [wrap ("_id", BSONValue.int 5)] }).batch.reload =
      some [[("_id", BSONValue.int 5), ("k", BSONValue.int 3)]] :=
  ⟨by decide,
    (transferMods_drains listExternals [[("_id", BSONValue.int 5), ("k", BSONValue.int 3)]]
      { fooDonor with deleted := [wrap ("_id", BSONValue.int 7)],
                      reload := [wrap ("_id", BSONValue.int 5)] } (by decide)).1,
    by decide⟩

/-- A CATCHUP loop left by `break` has made at least one call, its last reply
passed the stop test, and every reply before the last failed it. -/
theorem catchupLoop_left (env : Externals) (feed : DonorFeed) :
    ∀ (fuel k : Nat) (store store1 : Store) (calls : Nat),
      catchupLoop env feed fuel k store = some (CatchupExit.left store1 calls) →
      k < calls ∧
      (∃ res, feed.mods (calls - 1) = ModsReply.ok res ∧ catchupStops res = true) ∧
      ∀ i, k ≤ i → i + 1 < calls →
        ∃ res, feed.mods i = ModsReply.ok res ∧ catchupStops res = false := by
  intro fuel
  induction fuel with
  | zero =>
    intro k store store1 calls h
    simp [catchupLoop] at h
  | succ n ih =>
    intro k store store1 calls h
    unfold catchupLoop at h
    cases hm : feed.mods k with
    | failed t =>
      simp [hm] at h
    | ok res =>
      simp only [hm] at h
      by_cases hs : catchupStops res = true
      · simp only [hs, if_true, Option.some.injEq, CatchupExit.left.injEq] at h
        obtain ⟨_, hc⟩ := h
        subst hc
        refine ⟨Nat.lt_succ_self k, ⟨res, by simpa using hm, hs⟩, ?_⟩
        intro i h1 h2
        omega
      · simp only [hs] at h
        cases ha : apply env store res with
        | none =>
          simp [ha] at h
        | some store2 =>
          simp only [ha] at h
          obtain ⟨h1, h2, h3⟩ := ih (k + 1) store2 store1 calls (by simpa using h)
          refine ⟨by omega, h2, ?_⟩
          intro i hi1 hi2
          by_cases hik : i = k
          · subst hik
            exact ⟨res, hm, by simpa using hs⟩
          · exact h3 i (by omega) hi2

/-- While the total stays within the budget, the loop of `xfer` (without
`explode`) takes a run of `n` equal ids in one go. -/
theorem xferLoop_replicate (env : Externals) (store : Store) (t : BSONObj)
    (rest : List BSONObj) (hpos : 0 < env.objsize t) :
    ∀ (n : Nat) (arr : List BSONObj) (size : Nat),
      size + n * env.objsize t ≤ maxSize →
      xferLoop env store false (List.replicate n t ++ rest) arr size =
        xferLoop env store false rest (arr ++ List.replicate n t) (size + n * env.objsize t) := by
  intro n
  induction n with
  | zero =>
    intro arr size _
    simp
  | succ n ih =>
    intro arr size h
    have hmul : (n + 1) * env.objsize t = n * env.objsize t + env.objsize t :=
      Nat.succ_mul n (env.objsize t)
    have hlt : size < maxSize := by
      rw [hmul] at h
      omega
    have hstep : size + env.objsize t + n * env.objsize t ≤ maxSize := by
      rw [hmul] at h
      omega
    rw [List.replicate_succ, List.cons_append]
    simp only [xferLoop, hlt, if_true, Bool.false_eq_true, if_false]
    rw [ih (arr ++ [t]) (size + env.objsize t) hstep]
    have e1 : arr ++ [t] ++ List.replicate n t = arr ++ t :: List.replicate n t := by
      simp
    have e2 : size + env.objsize t + n * env.objsize t = size + (n * env.objsize t + env.objsize t) := by
      omega
    rw [e1, e2, hmul]

/-- C10, as stated, fails: with 65537 ids of 16 bytes queued in `deleted`,
`transferMods` stops after 65536 of them, when the total is exactly 1,048,576
bytes: one id is still queued although the reported size does not exceed
1 MiB. -/
theorem transferMods_budget_counterexample :
    (transferMods listExternals [] fullQueueDonor).batch.size = 1048576 ∧
    (transferMods listExternals [] fullQueueDonor).state.deleted = [idA] ∧
    ¬ ((transferMods listExternals [] fullQueueDonor).state.deleted = [] ∨
        1048576 < (transferMods listExternals [] fullQueueDonor).batch.size) := by
  have hsz : listExternals.objsize idA = 16 := by decide
  have hloop : xferLoop listExternals [] false (List.replicate 65536 idA ++ [idA]) [] 0 =
      ([idA], [] ++ List.replicate 65536 idA, 1048576) := by
    rw [xferLoop_replicate listExternals [] idA [idA] (by rw [hsz]; decide) 65536 [] 0
      (by rw [hsz]; decide)]
    rw [hsz]
    generalize ([] : List BSONObj) ++ List.replicate 65536 idA = arr
    have hstop : ¬ (0 + 65536 * 16 < maxSize) := by decide
    simp only [xferLoop, hstop, if_false]
  have hx : xfer listExternals [] (List.replicate 65536 idA ++ [idA]) 0 false =
      ([idA], some ([] ++ List.replicate 65536 idA), 1048576) := by
    have hcond : ¬ ((List.replicate 65536 idA ++ [idA]).length = 0 ∨ 0 > maxSize) := by
      rintro (h | h)
      · rw [List.length_append, List.length_replicate] at h
        exact absurd h (by decide)
      · exact absurd h (by decide)
    simp only [xfer, hcond, if_false, hloop]
  have hact : fullQueueDonor.active = true := by decide
  have hdel : fullQueueDonor.deleted = List.replicate 65536 idA ++ [idA] := rfl
  have hrel : fullQueueDonor.reload = [] := rfl
  have h1 : (transferMods listExternals [] fullQueueDonor).batch.size = 1048576 := by
    rw [transferMods_active listExternals [] fullQueueDonor hact, hdel, hrel, hx]
    simp [xfer]
  have h2 : (transferMods listExternals [] fullQueueDonor).state.deleted = [idA] := by
    rw [transferMods_active listExternals [] fullQueueDonor hact, hdel, hx]
  refine ⟨h1, h2, ?_⟩
  rw [h1, h2]
  decide

/-- C10 (amended): on an active donor, when `transferMods` returns, each of
`deleted` and `reload` is empty or the reported size has reached 1 MiB
(size >= 1,048,576: the loop stops as soon as the total is no longer below the
budget, also when it equals it); the reported size is the one running total
over both queues, the byte sizes of the ids removed from `deleted` plus those
removed from `reload`. -/
theorem transferMods_budget (env : Externals) (store : Store) (s : MigrateFromStatus)
    (hact : s.active = true) :
    ((transferMods env store s).state.deleted = [] ∨
      1048576 ≤ (transferMods env store s).batch.size) ∧
    ((transferMods env store s).state.reload = [] ∨
      1048576 ≤ (transferMods env store s).batch.size) ∧
    ∃ remD remR : List BSONObj,
      s.deleted = remD ++ (transferMods env store s).state.deleted ∧
      s.reload = remR ++ (transferMods env store s).state.reload ∧
      (transferMods env store s).batch.size =
        (remD.map env.objsize).sum + (remR.map env.objsize).sum := by
  rw [transferMods_active env store s hact]
  obtain ⟨remD, d1, _, d3, d4, _⟩ := xfer_spec env store false s.deleted 0
  obtain ⟨remR, r1, _, r3, r4, _⟩ :=
    xfer_spec env store true s.reload (xfer env store s.deleted 0 false).2.2
  have hm : maxSize = 1048576 := by decide
  rw [hm] at d4 r4
  refine ⟨?_, r4, remD, remR, d1, r1, ?_⟩
  · rcases d4 with h | h
    · exact Or.inl h
    · right
      show 1048576 ≤ (xfer env store s.reload (xfer env store s.deleted 0 false).2.2 true).2.2
      rw [r3]
      omega
  · show (xfer env store s.reload (xfer env store s.deleted 0 false).2.2 true).2.2 = _
    rw [r3, d3]
    omega

/-- Witness for C10 (amended): the donor with 65537 queued ids of 16 bytes is
active, and after `transferMods` its `deleted` queue is empty or the size has
reached 1 MiB. -/
theorem transferMods_budget_witness :
    fullQueueDonor.active = true ∧
    ((transferMods listExternals [] fullQueueDonor).state.deleted = [] ∨
      1048576 ≤ (transferMods listExternals [] fullQueueDonor).batch.size) :=
  ⟨by decide, (transferMods_budget listExternals [] fullQueueDonor (by decide)).1⟩

/-! ## Theorems: the `moveChunk` coordinator -/

/-- A run of `moveChunk` either ends before the capture is opened, with a
failure and nothing changed but the sharding flag, or passes every check and
continues with `moveChunkBody`, followed by the teardown of the capture. -/
theorem moveChunk_cases (env : Externals) (rem : Remote) (req : MoveChunkRequest)
    (w : World) :
    ((∀ n, (moveChunk env rem req w).1 ≠ Outcome.ok n) ∧
      ((moveChunk env rem req w).2 = w ∨
        (moveChunk env rem req w).2 = { w with shardingEnabled := true })) ∨
    (∃ sid x0 m, req.shardId = some sid ∧
      w.chunks.find? (fun c => c.id == sid) = some x0 ∧
      x0.shard = env.shardName req.fromAddr ∧
      getVersion w.versions req.ns ≤ readMaxVersion w.chunks req.ns ∧
      start w.migrateFromStatus req.ns req.min req.max = some m ∧
      moveChunk env rem req w =
        ((moveChunkBody env rem req sid (readMaxVersion w.chunks req.ns) x0.shard
            { w with shardingEnabled := true, migrateFromStatus := m }).1,
         { (moveChunkBody env rem req sid (readMaxVersion w.chunks req.ns) x0.shard
            { w with shardingEnabled := true, migrateFromStatus := m }).2 with
           migrateFromStatus := done (moveChunkBody env rem req sid
             (readMaxVersion w.chunks req.ns) x0.shard
             { w with shardingEnabled := true, migrateFromStatus := m }).2.migrateFromStatus })) := by
  by_cases h1 : req.ns = ""
  · left; simp [moveChunk, h1]
  by_cases h2 : req.toAddr = ""
  · left; simp [moveChunk, h1, h2]
  by_cases h3 : req.fromAddr = ""
  · left; simp [moveChunk, h1, h2, h3]
  by_cases h4 : req.min = []
  · left; simp [moveChunk, h1, h2, h3, h4]
  by_cases h5 : req.max = []
  · left; simp [moveChunk, h1, h2, h3, h4, h5]
  cases hsid : req.shardId with
  | none => left; simp [moveChunk, h1, h2, h3, h4, h5, hsid]
  | some sid =>
    by_cases h6 : w.shardingEnabled = false ∧ req.configdb = none
    · left; simp [moveChunk, h1, h2, h3, h4, h5, hsid, h6]
    by_cases h7 : rem.lockGot = false
    · left; simp [moveChunk, h1, h2, h3, h4, h5, hsid, h6, h7]
    cases hx0 : w.chunks.find? (fun c => c.id == sid) with
    | none => left; simp [moveChunk, h1, h2, h3, h4, h5, hsid, h6, h7, hx0]
    | some x0 =>
      by_cases h8 : x0.shard ≠ env.shardName req.fromAddr
      · left; simp [moveChunk, h1, h2, h3, h4, h5, hsid, h6, h7, hx0, h8]
      by_cases h9 : readMaxVersion w.chunks req.ns < getVersion w.versions req.ns
      · left
        simp [moveChunk, h1, h2, h3, h4, h5, hsid, h6, h7, hx0, h8, h9]
      cases hm : start w.migrateFromStatus req.ns req.min req.max with
      | none =>
        left
        simp [moveChunk, h1, h2, h3, h4, h5, hsid, h6, h7, hx0, h8, h9, hm]
      | some m =>
        right
        refine ⟨sid, x0, m, rfl, hx0, not_not.mp h8, Nat.le_of_not_lt h9, rfl, ?_⟩
        have h7t : rem.lockGot = true := by simpa using h7
        simp only [moveChunk, h1, h2, h3, h4, h5, hsid, h6, h7t, hx0, h8, h9, hm, if_false]
        rfl


/-- Reading a version just written gives it back. -/
theorem getVersion_setVersion (versions : List (String × Nat)) (ns : String) (v : Nat) :
    getVersion (setVersion versions ns v) ns = v := by
  simp [getVersion, setVersion]

/-- Steps 3 and 4 either end the run without success, having only sent
`_recvChunkStart`, or lead on to step 5. -/
theorem moveChunkBody_cases (env : Externals) (rem : Remote) (req : MoveChunkRequest)
    (sid : BSONValue) (maxVersion : Nat) (old : String) (w : World) :
    ((∀ n, (moveChunkBody env rem req sid maxVersion old w).1 ≠ Outcome.ok n) ∧
      (moveChunkBody env rem req sid maxVersion old w).2 =
        { w with sent := w.sent ++ ["_recvChunkStart"] }) ∨
    (moveChunkBody env rem req sid maxVersion old w =
      moveChunkCommit env rem req sid maxVersion old
        { w with sent := w.sent ++ ["_recvChunkStart"] }) := by
  by_cases h1 : rem.startOk = false
  · left
    cases he : rem.startErrmsg <;> simp [moveChunkBody, h1, he]
  · cases hw : waitSteady rem.status 0 86400 with
    | none =>
      left
      simp only [moveChunkBody, h1, hw, if_false]
      simp
    | some b =>
      right
      simp only [moveChunkBody, h1, hw, if_false]
      rfl

/-- Steps 5 to 7 once the sanity check on the versions has passed: the
assertions hold, and the run ends on the answer to `_recvChunkCommit`. -/
theorem moveChunkCommit_eq (env : Externals) (rem : Remote) (req : MoveChunkRequest)
    (sid : BSONValue) (maxVersion : Nat) (old : String) (w1 : World)
    (hv : getVersion w1.versions req.ns ≤ maxVersion) :
    moveChunkCommit env rem req sid maxVersion old w1 =
      if rem.commitOk = false then
        (Outcome.failed "_recvChunkCommit failed!",
          { w1 with
            migrateFromStatus := { w1.migrateFromStatus with inCriticalSection := true },
            enteredCritical := true,
            versions := setVersion w1.versions req.ns (maxVersion + 1),
            sent := w1.sent ++ ["_recvChunkCommit"] })
      else
        (Outcome.ok (env.removeRange w1.store req.min req.max).2,
          { w1 with
            migrateFromStatus :=
              done { w1.migrateFromStatus with inCriticalSection := false },
            enteredCritical := true,
            versions := (commitConfig env req sid (maxVersion + 1) old w1.chunks
              (setVersion w1.versions req.ns (maxVersion + 1))).2,
            chunks := (commitConfig env req sid (maxVersion + 1) old w1.chunks
              (setVersion w1.versions req.ns (maxVersion + 1))).1,
            changelog := w1.changelog ++ [("moveChunk", req.ns)],
            sent := w1.sent ++ ["_recvChunkCommit"],
            store := (env.removeRange w1.store req.min req.max).1 }) := by
  have h1 : maxVersion + 1 > getVersion w1.versions req.ns := by omega
  simp only [moveChunkCommit, h1, getVersion_setVersion, not_true_eq_false, if_false]

/-- C5: in every run of `moveChunk` that sends `_recvChunkCommit` and gets a
failure back, the coordinator returns failure with errmsg
"_recvChunkCommit failed!", the `chunks` collection of the config store is
exactly as before the call (no shard or lastmod changed), and the local
collection is untouched (nothing of the range is deleted). -/
theorem moveChunk_commit_failure (env : Externals) (rem : Remote)
    (req : MoveChunkRequest) (w : World)
    (hsent : "_recvChunkCommit" ∈ (moveChunk env rem req w).2.sent)
    (hfresh : "_recvChunkCommit" ∉ w.sent)
    (hfail : rem.commitOk = false) :
    (moveChunk env rem req w).1 = Outcome.failed "_recvChunkCommit failed!" ∧
    (moveChunk env rem req w).2.chunks = w.chunks ∧
    (moveChunk env rem req w).2.store = w.store := by
  rcases moveChunk_cases env rem req w with ⟨_, h | h⟩ | ⟨sid, x0, m, _, _, _, hv, _, heq⟩
  · rw [h] at hsent
    exact absurd hsent hfresh
  · rw [h] at hsent
    exact absurd hsent hfresh
  · rw [heq] at hsent ⊢
    rcases moveChunkBody_cases env rem req sid (readMaxVersion w.chunks req.ns) x0.shard
      { w with shardingEnabled := true, migrateFromStatus := m } with ⟨_, hb⟩ | hb
    · rw [hb] at hsent
      simp only [List.mem_append, List.mem_singleton] at hsent
      rcases hsent with h | h
      · exact absurd h hfresh
      · exact absurd h (by decide)
    · have hc := moveChunkCommit_eq env rem req sid (readMaxVersion w.chunks req.ns) x0.shard
        ({ w with shardingEnabled := true, migrateFromStatus := m,
                  sent := w.sent ++ ["_recvChunkStart"] } : World) hv
      rw [hb, hc]
      simp [hfail]

/-- Witness for C5: the move of `fooChunk` with a recipient that refuses the
commit. -/
theorem moveChunk_commit_failure_witness :
    "_recvChunkCommit" ∈ (moveChunk listExternals failingCommitRemote fooRequest fooWorld).2.sent ∧
    "_recvChunkCommit" ∉ fooWorld.sent ∧
    failingCommitRemote.commitOk = false ∧
    (moveChunk listExternals failingCommitRemote fooRequest fooWorld).1 =
      Outcome.failed "_recvChunkCommit failed!" ∧
    (moveChunk listExternals failingCommitRemote fooRequest fooWorld).2.chunks = [fooChunk] :=
  ⟨by decide, by decide, by decide,
    (moveChunk_commit_failure listExternals failingCommitRemote fooRequest fooWorld
      (by decide) (by decide) (by decide)).1,
    (moveChunk_commit_failure listExternals failingCommitRemote fooRequest fooWorld
      (by decide) (by decide) (by decide)).2.1⟩

/-- What a successful run of `moveChunk` went through: the request names a chunk
owned by the donor, the in-memory version did not exceed the highest
`lastmod` read, and the config store and the in-memory versions afterwards
are those written by step 5.c with `myVersion = maxVersion + 1`. -/
theorem moveChunk_ok_inv (env : Externals) (rem : Remote) (req : MoveChunkRequest)
    (w : World) (n : Nat) (h : (moveChunk env rem req w).1 = Outcome.ok n) :
    ∃ sid x0, req.shardId = some sid ∧
      w.chunks.find? (fun c => c.id == sid) = some x0 ∧
      x0.shard = env.shardName req.fromAddr ∧
      getVersion w.versions req.ns ≤ readMaxVersion w.chunks req.ns ∧
      (moveChunk env rem req w).2.chunks =
        (commitConfig env req sid (readMaxVersion w.chunks req.ns + 1) x0.shard w.chunks
          (setVersion w.versions req.ns (readMaxVersion w.chunks req.ns + 1))).1 ∧
      (moveChunk env rem req w).2.versions =
        (commitConfig env req sid (readMaxVersion w.chunks req.ns + 1) x0.shard w.chunks
          (setVersion w.versions req.ns (readMaxVersion w.chunks req.ns + 1))).2 := by
  rcases moveChunk_cases env rem req w with ⟨hno, _⟩ | ⟨sid, x0, m, hsid, hx0, hsh, hv, _, heq⟩
  · exact absurd h (hno n)
  · refine ⟨sid, x0, hsid, hx0, hsh, hv, ?_⟩
    rw [heq] at h ⊢
    rcases moveChunkBody_cases env rem req sid (readMaxVersion w.chunks req.ns) x0.shard
      { w with shardingEnabled := true, migrateFromStatus := m } with ⟨hno, _⟩ | hb
    · exact absurd h (hno n)
    · have hq := moveChunkCommit_eq env rem req sid (readMaxVersion w.chunks req.ns) x0.shard
        ({ w with shardingEnabled := true, migrateFromStatus := m,
                  sent := w.sent ++ ["_recvChunkStart"] } : World) hv
      rw [hb, hq] at h ⊢
      by_cases hc : rem.commitOk = false
      · simp [hc] at h
      · simp [hc]

/-! ### The config store after step 5.c -/

/-- An update of the record with id `a` by a function keeping ids shows at the
lookup of `a`. -/
theorem find_updateFirst_same (a : BSONValue) (f : ChunkRecord → ChunkRecord)
    (hf : ∀ c, (f c).id = c.id) (l : List ChunkRecord) :
    (updateFirst (fun c => c.id == a) f l).find? (fun c => c.id == a) =
      (l.find? (fun c => c.id == a)).map f := by
  induction l with
  | nil => simp [updateFirst]
  | cons c cs ih =>
    by_cases hc : c.id = a
    · simp [updateFirst, hc, hf]
    · simp [updateFirst, hc, ih]

/-- An update of the record with id `b` by a function keeping ids does not show
at the lookup of another id `a`. -/
theorem find_updateFirst_other (a b : BSONValue) (hab : a ≠ b)
    (f : ChunkRecord → ChunkRecord) (hf : ∀ c, (f c).id = c.id) (l : List ChunkRecord) :
    (updateFirst (fun c => c.id == b) f l).find? (fun c => c.id == a) =
      l.find? (fun c => c.id == a) := by
  induction l with
  | nil => simp [updateFirst]
  | cons c cs ih =>
    by_cases hc : c.id = b
    · have hca : ¬ c.id = a := fun h => hab (h.symm.trans hc)
      have hfa : ¬ (f c).id = a := by rw [hf]; exact hca
      simp [updateFirst, hc, List.find?_cons, hfa, hab.symm]
    · by_cases hca : c.id = a
      · simp [updateFirst, hc, List.find?_cons, hca, hab]
      · simp [updateFirst, hc, List.find?_cons, hca, ih]

/-- With unique ids, the lookup of the id of a record of the list finds that
record. -/
theorem find_of_mem_nodup (l : List ChunkRecord) (hn : (l.map (fun c => c.id)).Nodup)
    (x : ChunkRecord) (hx : x ∈ l) :
    l.find? (fun c => c.id == x.id) = some x := by
  induction l with
  | nil => cases hx
  | cons c cs ih =>
    rw [List.map_cons, List.nodup_cons] at hn
    rcases List.mem_cons.mp hx with h | h
    · subst h
      simp
    · have hne : ¬ c.id = x.id := by
        intro he
        apply hn.1
        rw [he]
        exact List.mem_map_of_mem (fun c => c.id) h
      simp [List.find?_cons, hne, ih hn.2 h]

/-- With unique ids, after the record with id `a` got a value failing the filter
`p`, the records passing `p` are those that passed it before, the one with id
`a` left out. -/
theorem filter_updateFirst (a : BSONValue) (f : ChunkRecord → ChunkRecord)
    (p : ChunkRecord → Bool) (hp : ∀ c, p (f c) = false) (l : List ChunkRecord)
    (hn : (l.map (fun c => c.id)).Nodup) :
    (updateFirst (fun c => c.id == a) f l).filter p =
      l.filter (fun c => p c && c.id != a) := by
  induction l with
  | nil => simp [updateFirst]
  | cons c cs ih =>
    rw [List.map_cons, List.nodup_cons] at hn
    by_cases hc : c.id = a
    · have hrest : cs.filter p = cs.filter (fun c => p c && c.id != a) := by
        apply List.filter_congr
        intro d hd
        have hda : ¬ d.id = a := by
          intro he
          apply hn.1
          rw [hc, ← he]
          exact List.mem_map_of_mem (fun c => c.id) hd
        simp [hda]
      simp [updateFirst, hc, List.filter_cons, hp, hrest]
    · simp [updateFirst, hc, List.filter_cons, ih hn.2]

/-- The record chosen by `highestLastmod` is in the list and no record of the
list has a higher `lastmod`. -/
theorem highestLastmod_spec (l : List ChunkRecord) :
    (l = [] → highestLastmod l = none) ∧
    (∀ x, highestLastmod l = some x → x ∈ l ∧ ∀ c ∈ l, c.lastmod ≤ x.lastmod) ∧
    (l ≠ [] → ∃ x, highestLastmod l = some x) := by
  induction l with
  | nil => simp [highestLastmod]
  | cons c cs ih =>
    obtain ⟨ih1, ih2, ih3⟩ := ih
    refine ⟨fun h => absurd h (List.cons_ne_nil _ _), ?_, ?_⟩
    · intro x hx
      cases hcs : highestLastmod cs with
      | none =>
        have hnil : cs = [] := by
          by_contra hne
          obtain ⟨y, hy⟩ := ih3 hne
          rw [hcs] at hy
          cases hy
        simp only [highestLastmod, hcs, Option.some.injEq] at hx
        subst hx
        subst hnil
        simp
      | some d =>
        obtain ⟨hd1, hd2⟩ := ih2 d hcs
        simp only [highestLastmod, hcs] at hx
        by_cases hlt : c.lastmod < d.lastmod
        · simp only [hlt, if_true, Option.some.injEq] at hx
          subst hx
          refine ⟨List.mem_cons_of_mem _ hd1, ?_⟩
          intro e he
          rcases List.mem_cons.mp he with h | h
          · subst h
            exact Nat.le_of_lt hlt
          · exact hd2 e h
        · simp only [hlt, if_false, Option.some.injEq] at hx
          subst hx
          refine ⟨List.mem_cons_self _ _, ?_⟩
          intro e he
          rcases List.mem_cons.mp he with h | h
          · subst h
            exact Nat.le_refl _
          · exact Nat.le_trans (hd2 e h) (Nat.le_of_not_lt hlt)
    · intro _
      cases hcs : highestLastmod cs with
      | none => exact ⟨c, by simp [highestLastmod, hcs]⟩
      | some d =>
        by_cases hlt : c.lastmod < d.lastmod
        · exact ⟨d, by simp [highestLastmod, hcs, hlt]⟩
        · exact ⟨c, by simp [highestLastmod, hcs, hlt]⟩

/-- The version read by the sanity check is at least the `lastmod` of every
chunk of the collection. -/
theorem le_readMaxVersion (chunks : List ChunkRecord) (ns : String) (c : ChunkRecord)
    (hc : c ∈ chunks) (hns : c.ns = ns) : c.lastmod ≤ readMaxVersion chunks ns := by
  have hmem : c ∈ chunks.filter (fun c => c.ns == ns) := by
    simp [List.mem_filter, hc, hns]
  have hne : chunks.filter (fun c => c.ns == ns) ≠ [] := List.ne_nil_of_mem hmem
  obtain ⟨_, h2, h3⟩ := highestLastmod_spec (chunks.filter (fun c => c.ns == ns))
  obtain ⟨x, hx⟩ := h3 hne
  have := (h2 x hx).2 c hmem
  simp only [readMaxVersion, findOneSorted, hx, Option.map_some', Option.getD_some]
  exact this

/-- Step 5.c when the recipient shard is not the donor and ids are unique: the
chunk bumped besides the moved one is the chunk of the collection with the
highest `lastmod` among those the donor owned before, the moved one apart. -/
theorem commitConfig_eq (env : Externals) (req : MoveChunkRequest) (sid : BSONValue)
    (v : Nat) (old : String) (chunks : List ChunkRecord) (versions : List (String × Nat))
    (hto : env.shardName req.toAddr ≠ old)
    (hn : (chunks.map (fun c => c.id)).Nodup) :
    commitConfig env req sid v old chunks versions =
      match findOneSorted chunks
        (fun c => (c.ns == req.ns && c.shard == old) && c.id != sid) with
      | some x =>
        (updateFirst (fun c => c.id == x.id) (fun c => { c with lastmod := v + 1 })
          (updateFirst (fun c => c.id == sid)
            (fun c => { c with shard := env.shardName req.toAddr, lastmod := v }) chunks),
         setVersion versions req.ns (v + 1))
      | none =>
        (updateFirst (fun c => c.id == sid)
            (fun c => { c with shard := env.shardName req.toAddr, lastmod := v }) chunks,
         setVersion versions req.ns 0) := by
  have hf := filter_updateFirst sid
    (fun c => { c with shard := env.shardName req.toAddr, lastmod := v })
    (fun c => c.ns == req.ns && c.shard == old) (by intro c; simp [hto]) chunks hn
  unfold commitConfig findOneSorted
  simp only [hf]

/-- C4 (amended): after a successful `moveChunk` whose recipient shard is not the
donor's own shard (chunk ids being unique in the config store), with
`maxVersion` the highest `lastmod` of `ns` read in the sanity check: the chunk
`shardId` has `shard = to` and `lastmod = maxVersion + 1`, which is above every
`lastmod` of `ns` from before the move; if the donor still owns another chunk
of `ns`, the one with the highest `lastmod` is set to `maxVersion + 2` and the
donor's in-memory version is `maxVersion + 2`; if it owns none, the in-memory
version is 0. -/
theorem moveChunk_success_versions (env : Externals) (rem : Remote)
    (req : MoveChunkRequest) (w : World) (n : Nat)
    (hok : (moveChunk env rem req w).1 = Outcome.ok n)
    (hto : env.shardName req.toAddr ≠ env.shardName req.fromAddr)
    (hn : (w.chunks.map (fun c => c.id)).Nodup) :
    ∃ sid x0, req.shardId = some sid ∧
      w.chunks.find? (fun c => c.id == sid) = some x0 ∧
      (∀ c ∈ w.chunks, c.ns = req.ns → c.lastmod < readMaxVersion w.chunks req.ns + 1) ∧
      (moveChunk env rem req w).2.chunks.find? (fun c => c.id == sid) =
        some { x0 with shard := env.shardName req.toAddr,
                       lastmod := readMaxVersion w.chunks req.ns + 1 } ∧
      (∀ x, findOneSorted w.chunks
            (fun c => (c.ns == req.ns && c.shard == env.shardName req.fromAddr) && c.id != sid) =
            some x →
        (moveChunk env rem req w).2.chunks.find? (fun c => c.id == x.id) =
          some { x with lastmod := readMaxVersion w.chunks req.ns + 2 } ∧
        getVersion (moveChunk env rem req w).2.versions req.ns =
          readMaxVersion w.chunks req.ns + 2) ∧
      (findOneSorted w.chunks
            (fun c => (c.ns == req.ns && c.shard == env.shardName req.fromAddr) && c.id != sid) =
            none →
        getVersion (moveChunk env rem req w).2.versions req.ns = 0) := by
  obtain ⟨sid, x0, hsid, hx0, hsh, _, hch, hvs⟩ := moveChunk_ok_inv env rem req w n hok
  refine ⟨sid, x0, hsid, hx0, ?_, ?_⟩
  · intro c hc hns
    exact Nat.lt_succ_of_le (le_readMaxVersion w.chunks req.ns c hc hns)
  rw [hsh] at hch hvs
  rw [commitConfig_eq env req sid _ _ w.chunks _ hto hn] at hch hvs
  have hfid : ∀ c : ChunkRecord,
      ({ c with shard := env.shardName req.toAddr,
                lastmod := readMaxVersion w.chunks req.ns + 1 } : ChunkRecord).id = c.id :=
    fun _ => rfl
  have hgid : ∀ c : ChunkRecord,
      ({ c with lastmod := readMaxVersion w.chunks req.ns + 1 + 1 } : ChunkRecord).id = c.id :=
    fun _ => rfl
  cases hres : findOneSorted w.chunks
      (fun c => (c.ns == req.ns && c.shard == env.shardName req.fromAddr) && c.id != sid) with
  | none =>
    rw [hres] at hch hvs
    simp only at hch hvs
    refine ⟨?_, (fun x hx => by cases hx), fun _ => ?_⟩
    · rw [hch, find_updateFirst_same sid _ hfid, hx0]
      rfl
    · rw [hvs, getVersion_setVersion]
  | some x =>
    rw [hres] at hch hvs
    simp only at hch hvs
    have hxmem : x ∈ w.chunks.filter
        (fun c => (c.ns == req.ns && c.shard == env.shardName req.fromAddr) && c.id != sid) :=
      ((highestLastmod_spec _).2.1 x hres).1
    have hxin : x ∈ w.chunks := (List.mem_filter.mp hxmem).1
    have hxne : x.id ≠ sid := by
      have := (List.mem_filter.mp hxmem).2
      simp at this
      exact this.2
    refine ⟨?_, fun y hy => ?_, (fun h => by cases h)⟩
    · rw [hch, find_updateFirst_other sid x.id (Ne.symm hxne) _ hgid,
        find_updateFirst_same sid _ hfid, hx0]
      rfl
    · have hyx : y = x := by
        have := hy
        simp only [Option.some.injEq] at this
        exact this.symm
      subst hyx
      constructor
      · rw [hch, find_updateFirst_same y.id _ hgid,
          find_updateFirst_other y.id sid hxne _ hfid, find_of_mem_nodup w.chunks hn y hxin]
        rfl
      · rw [hvs, getVersion_setVersion]

/-- C4, as stated, fails: moving `fooChunk` from `shardA` to `shardA` itself
succeeds, the highest `lastmod` read is 5, and afterwards the chunk has
`lastmod` 7, not 5 + 1: having `shard = to`, which is the donor, it is also
the donor's chunk with the highest `lastmod` and gets the second bump. -/
theorem moveChunk_self_counterexample :
    (moveChunk listExternals steadyRemote selfRequest fooWorld).1 = Outcome.ok 1 ∧
    selfRequest.shardId = some (BSONValue.int 1) ∧
    readMaxVersion fooWorld.chunks selfRequest.ns = 5 ∧
    (moveChunk listExternals steadyRemote selfRequest fooWorld).2.chunks.find?
        (fun c => c.id == BSONValue.int 1) =
      some { fooChunk with shard := "shardA", lastmod := 7 } := by
  decide

/-- Witness for C4 (amended): the move of `fooChunk` from `shardA`, which also
owns `barChunk`, to `shardB`. -/
theorem moveChunk_success_versions_witness :
    (moveChunk listExternals steadyRemote fooRequest twoChunkWorld).1 = Outcome.ok 1 ∧
    listExternals.shardName fooRequest.toAddr ≠ listExternals.shardName fooRequest.fromAddr ∧
    (twoChunkWorld.chunks.map (fun c => c.id)).Nodup ∧
    ∃ sid x0, fooRequest.shardId = some sid ∧
      twoChunkWorld.chunks.find? (fun c => c.id == sid) = some x0 ∧
      (∀ c ∈ twoChunkWorld.chunks, c.ns = fooRequest.ns →
        c.lastmod < readMaxVersion twoChunkWorld.chunks fooRequest.ns + 1) ∧
      (moveChunk listExternals steadyRemote fooRequest twoChunkWorld).2.chunks.find?
          (fun c => c.id == sid) =
        some { x0 with shard := listExternals.shardName fooRequest.toAddr,
                       lastmod := readMaxVersion twoChunkWorld.chunks fooRequest.ns + 1 } ∧
      (∀ x, findOneSorted twoChunkWorld.chunks
            (fun c => (c.ns == fooRequest.ns &&
              c.shard == listExternals.shardName fooRequest.fromAddr) && c.id != sid) = some x →
        (moveChunk listExternals steadyRemote fooRequest twoChunkWorld).2.chunks.find?
            (fun c => c.id == x.id) =
          some { x with lastmod := readMaxVersion twoChunkWorld.chunks fooRequest.ns + 2 } ∧
        getVersion (moveChunk listExternals steadyRemote fooRequest twoChunkWorld).2.versions
            fooRequest.ns =
          readMaxVersion twoChunkWorld.chunks fooRequest.ns + 2) ∧
      (findOneSorted twoChunkWorld.chunks
            (fun c => (c.ns == fooRequest.ns &&
              c.shard == listExternals.shardName fooRequest.fromAddr) && c.id != sid) = none →
        getVersion (moveChunk listExternals steadyRemote fooRequest twoChunkWorld).2.versions
            fooRequest.ns = 0) :=
  ⟨by decide, by decide, by decide,
    moveChunk_success_versions listExternals steadyRemote fooRequest twoChunkWorld 1
      (by decide) (by decide) (by decide)⟩

/-- A recipient that never reports "steady" (and always reports some state)
makes the loop of step 4 run out. -/
theorem waitSteady_never (status : Nat → Option String)
    (h : ∀ j, ∃ st, status j = some st ∧ st ≠ "steady") :
    ∀ n i, waitSteady status i n = some false := by
  intro n
  induction n with
  | zero =>
    intro i
    rfl
  | succ n ih =>
    intro i
    obtain ⟨st, h1, h2⟩ := h i
    simp only [waitSteady, h1, h2, if_false]
    exact ih (i + 1)

/-- The run does not depend on how the loop of step 4 was left: two recipients
that differ only in their status reports, neither of them making the loop
throw, give the same run. -/
theorem moveChunk_wait_irrelevant (env : Externals) (rem : Remote)
    (req : MoveChunkRequest) (w : World) (status2 : Nat → Option String) (a b : Bool)
    (h1 : waitSteady rem.status 0 86400 = some a)
    (h2 : waitSteady status2 0 86400 = some b) :
    moveChunk env { rem with status := status2 } req w = moveChunk env rem req w := by
  simp only [moveChunk, moveChunkBody, moveChunkCommit, h1, h2]

/-- C6 fails on the code: with a recipient that reports "catchup" at each of the
86,400 polls, the loop of step 4 runs out and `moveChunk` goes on into step 5
exactly as if "steady" had been reported.  When the recipient then refuses the
commit, the run has raised the critical section, bumped the in-memory version
from 5 to 6 and sent `_recvChunkCommit` before it returns failure; when the
recipient accepts the commit, the run also rewrites the config store, deletes
the local range and returns success. -/
theorem moveChunk_never_steady_proceeds :
    waitSteady stuckRemote.status 0 86400 = some false ∧
    (moveChunk listExternals stuckRemote fooRequest twoChunkWorld).1 =
      Outcome.failed "_recvChunkCommit failed!" ∧
    (moveChunk listExternals stuckRemote fooRequest twoChunkWorld).2.enteredCritical = true ∧
    (moveChunk listExternals stuckRemote fooRequest twoChunkWorld).2.sent =
      ["_recvChunkStart", "_recvChunkCommit"] ∧
    getVersion twoChunkWorld.versions "test.foo" = 5 ∧
    getVersion (moveChunk listExternals stuckRemote fooRequest twoChunkWorld).2.versions
      "test.foo" = 6 ∧
    (moveChunk listExternals catchupRemote fooRequest twoChunkWorld).1 = Outcome.ok 1 ∧
    (moveChunk listExternals catchupRemote fooRequest twoChunkWorld).2.enteredCritical = true ∧
    (moveChunk listExternals catchupRemote fooRequest twoChunkWorld).2.chunks =
      [{ fooChunk with shard := "shardB", lastmod := 6 }, { barChunk with lastmod := 7 }] ∧
    (moveChunk listExternals catchupRemote fooRequest twoChunkWorld).2.store = [] := by
  have hw : waitSteady stuckRemote.status 0 86400 = some false :=
    waitSteady_never stuckRemote.status (fun _ => ⟨"catchup", rfl, by decide⟩) 86400 0
  have hs : waitSteady steadyRemote.status 0 86400 = some true := by decide
  have hf : waitSteady failingCommitRemote.status 0 86400 = some true := by decide
  have he : moveChunk listExternals catchupRemote fooRequest twoChunkWorld =
      moveChunk listExternals steadyRemote fooRequest twoChunkWorld :=
    moveChunk_wait_irrelevant listExternals steadyRemote fooRequest twoChunkWorld
      (fun _ => some "catchup") true false hs hw
  have hk : moveChunk listExternals stuckRemote fooRequest twoChunkWorld =
      moveChunk listExternals failingCommitRemote fooRequest twoChunkWorld :=
    moveChunk_wait_irrelevant listExternals failingCommitRemote fooRequest twoChunkWorld
      (fun _ => some "catchup") true false hf hw
  refine ⟨hw, ?_⟩
  rw [he, hk]
  decide

/-! ## Theorems: the recipient's `apply` -/

/-- C3 fails on the code: the reply `transferMods` builds for a donor with one
queued delete carries a "deleted" array, and `apply` of that reply on the
recipient ends in the assertion failure instead of deleting the id. -/
theorem apply_deleted_asserts :
    (transferMods listExternals [] deleteQueuedDonor).batch =
      { deleted := some [wrap ("_id", BSONValue.int 7)], reload := none, size := 14 } ∧
    apply listExternals recipientStore
      (transferMods listExternals [] deleteQueuedDonor).batch = none := by
  decide

/-! ## Theorems: teardown of the capture, assertions and retry -/

/-- A run whose list of sent commands changed has passed the argument checks and
obtained the lock. -/
theorem moveChunk_checks_of_sent (env : Externals) (rem : Remote) (req : MoveChunkRequest)
    (w : World) (h : (moveChunk env rem req w).2.sent ≠ w.sent) :
    req.ns ≠ "" ∧ req.toAddr ≠ "" ∧ req.fromAddr ≠ "" ∧ req.min ≠ [] ∧ req.max ≠ [] ∧
    ¬ (w.shardingEnabled = false ∧ req.configdb = none) ∧ rem.lockGot = true := by
  by_cases h1 : req.ns = ""
  · simp [moveChunk, h1] at h
  by_cases h2 : req.toAddr = ""
  · simp [moveChunk, h1, h2] at h
  by_cases h3 : req.fromAddr = ""
  · simp [moveChunk, h1, h2, h3] at h
  by_cases h4 : req.min = []
  · simp [moveChunk, h1, h2, h3, h4] at h
  by_cases h5 : req.max = []
  · simp [moveChunk, h1, h2, h3, h4, h5] at h
  cases hsid : req.shardId with
  | none => simp [moveChunk, h1, h2, h3, h4, h5, hsid] at h
  | some sid =>
    by_cases h6 : w.shardingEnabled = false ∧ req.configdb = none
    · simp [moveChunk, h1, h2, h3, h4, h5, hsid, h6] at h
    by_cases h7 : rem.lockGot = false
    · simp [moveChunk, h1, h2, h3, h4, h5, hsid, h6, h7] at h
    exact ⟨h1, h2, h3, h4, h5, h6, by simpa using h7⟩

/-- A request that passes the argument checks, gets the lock and names a chunk
owned by the donor is rejected by the version check when the in-memory
version is above the highest `lastmod` of the collection; nothing is changed
but the sharding flag. -/
theorem moveChunk_stale_reject (env : Externals) (rem : Remote) (req : MoveChunkRequest)
    (w : World) (sid : BSONValue) (x0 : ChunkRecord)
    (h1 : req.ns ≠ "") (h2 : req.toAddr ≠ "") (h3 : req.fromAddr ≠ "")
    (h4 : req.min ≠ []) (h5 : req.max ≠ [])
    (h6 : ¬ (w.shardingEnabled = false ∧ req.configdb = none))
    (h7 : rem.lockGot = true) (hsid : req.shardId = some sid)
    (hx0 : w.chunks.find? (fun c => c.id == sid) = some x0)
    (hsh : x0.shard = env.shardName req.fromAddr)
    (hv : readMaxVersion w.chunks req.ns < getVersion w.versions req.ns) :
    moveChunk env rem req w =
      (Outcome.failed "official version less than mine?",
        { w with shardingEnabled := true }) := by
  simp [moveChunk, h1, h2, h3, h4, h5, h6, h7, hsid, hx0, hsh, hv]

/-- The world a run is left in when it sends `_recvChunkCommit` and the answer
is a failure: the in-memory version of the collection is the highest
`lastmod` read plus one, the config store is as before, the sharding flag is
set. -/
theorem moveChunk_commit_failure_world (env : Externals) (rem : Remote)
    (req : MoveChunkRequest) (w : World)
    (hsent : "_recvChunkCommit" ∈ (moveChunk env rem req w).2.sent)
    (hfresh : "_recvChunkCommit" ∉ w.sent)
    (hfail : rem.commitOk = false) :
    (moveChunk env rem req w).2.versions =
      setVersion w.versions req.ns (readMaxVersion w.chunks req.ns + 1) ∧
    (moveChunk env rem req w).2.chunks = w.chunks ∧
    (moveChunk env rem req w).2.shardingEnabled = true ∧
    ∃ sid x0, req.shardId = some sid ∧
      w.chunks.find? (fun c => c.id == sid) = some x0 ∧
      x0.shard = env.shardName req.fromAddr := by
  rcases moveChunk_cases env rem req w with
    ⟨_, h | h⟩ | ⟨sid, x0, m, hsid, hx0, hsh, hv, _, heq⟩
  · rw [h] at hsent
    exact absurd hsent hfresh
  · rw [h] at hsent
    exact absurd hsent hfresh
  · refine ⟨?_, ?_, ?_, sid, x0, hsid, hx0, hsh⟩
    all_goals
      rw [heq] at hsent ⊢
      rcases moveChunkBody_cases env rem req sid (readMaxVersion w.chunks req.ns) x0.shard
        { w with shardingEnabled := true, migrateFromStatus := m } with ⟨_, hb⟩ | hb
      · rw [hb] at hsent
        simp only [List.mem_append, List.mem_singleton] at hsent
        rcases hsent with h | h
        · exact absurd h hfresh
        · exact absurd h (by decide)
      · have hc := moveChunkCommit_eq env rem req sid (readMaxVersion w.chunks req.ns) x0.shard
          ({ w with shardingEnabled := true, migrateFromStatus := m,
                    sent := w.sent ++ ["_recvChunkStart"] } : World) hv
        rw [hb, hc]
        simp [hfail]

/-- C16: whenever a run of `moveChunk` reaches the critical section, the sanity
check has passed (the in-memory version is at most `maxVersion`) and, for
every `maxVersion` below a largest representable version `bound` (so that the
increment does not wrap around), `myVersion = maxVersion + 1` is strictly
above the in-memory version before `setVersion` and equal to it after; no
assertion of the run fails. -/
theorem moveChunk_assertions_hold (env : Externals) (rem : Remote)
    (req : MoveChunkRequest) (w : World) (bound : Nat)
    (hfresh : w.enteredCritical = false)
    (hreach : (moveChunk env rem req w).2.enteredCritical = true)
    (hbound : readMaxVersion w.chunks req.ns < bound) :
    getVersion w.versions req.ns ≤ readMaxVersion w.chunks req.ns ∧
    (readMaxVersion w.chunks req.ns + 1) % (bound + 1) = readMaxVersion w.chunks req.ns + 1 ∧
    getVersion w.versions req.ns < readMaxVersion w.chunks req.ns + 1 ∧
    getVersion (setVersion w.versions req.ns (readMaxVersion w.chunks req.ns + 1)) req.ns =
      readMaxVersion w.chunks req.ns + 1 ∧
    ∀ what, (moveChunk env rem req w).1 ≠ Outcome.threw what := by
  rcases moveChunk_cases env rem req w with
    ⟨_, h | h⟩ | ⟨sid, x0, m, _, _, _, hv, _, heq⟩
  · rw [h, hfresh] at hreach
    cases hreach
  · rw [h] at hreach
    simp only [hfresh] at hreach
    cases hreach
  · refine ⟨hv, Nat.mod_eq_of_lt (by omega), by omega, getVersion_setVersion _ _ _, ?_⟩
    intro what
    rw [heq] at hreach ⊢
    rcases moveChunkBody_cases env rem req sid (readMaxVersion w.chunks req.ns) x0.shard
      { w with shardingEnabled := true, migrateFromStatus := m } with ⟨_, hb⟩ | hb
    · rw [hb] at hreach
      simp only [hfresh] at hreach
      cases hreach
    · have hc := moveChunkCommit_eq env rem req sid (readMaxVersion w.chunks req.ns) x0.shard
        ({ w with shardingEnabled := true, migrateFromStatus := m,
                  sent := w.sent ++ ["_recvChunkStart"] } : World) hv
      rw [hb, hc]
      by_cases hk : rem.commitOk = false
      · simp [hk]
      · simp [hk]

/-- Witness for C16: the move of `fooChunk` at version 5, with versions
representable up to 2^64 - 1. -/
theorem moveChunk_assertions_hold_witness :
    fooWorld.enteredCritical = false ∧
    (moveChunk listExternals steadyRemote fooRequest fooWorld).2.enteredCritical = true ∧
    readMaxVersion fooWorld.chunks fooRequest.ns < 18446744073709551615 ∧
    getVersion fooWorld.versions fooRequest.ns <
      readMaxVersion fooWorld.chunks fooRequest.ns + 1 :=
  ⟨by decide, by decide, by decide,
    (moveChunk_assertions_hold listExternals steadyRemote fooRequest fooWorld
      18446744073709551615 (by decide) (by decide) (by decide)).2.2.1⟩

/-- C17: the bump of the in-memory version is not rolled back.  After a run of
`moveChunk` that sent `_recvChunkCommit` and got a failure back, the donor's
in-memory version of `ns` is `maxVersion + 1` while the highest `lastmod` of
`ns` in the config store is still `maxVersion`.  Every following `moveChunk`
on the same `ns` against that state, for any chunk, any recipient and any
answers of the cluster, leaves the whole state unchanged (no capture is
started, nothing is sent to the recipient) and does not succeed; when it
passes the checks that come before the version check (arguments present, lock
obtained, chunk found and owned by `from`) it is rejected with
"official version less than mine?", and so is in particular the same request
run again with the lock obtained. -/
theorem moveChunk_retry_rejected (env : Externals) (rem : Remote)
    (req : MoveChunkRequest) (w : World)
    (hsent : "_recvChunkCommit" ∈ (moveChunk env rem req w).2.sent)
    (hfresh : "_recvChunkCommit" ∉ w.sent)
    (hfail : rem.commitOk = false) :
    getVersion (moveChunk env rem req w).2.versions req.ns =
      readMaxVersion w.chunks req.ns + 1 ∧
    readMaxVersion (moveChunk env rem req w).2.chunks req.ns =
      readMaxVersion w.chunks req.ns ∧
    (∀ (rem2 : Remote) (req2 : MoveChunkRequest), req2.ns = req.ns →
      (moveChunk env rem2 req2 (moveChunk env rem req w).2).2 = (moveChunk env rem req w).2 ∧
      (∀ n, (moveChunk env rem2 req2 (moveChunk env rem req w).2).1 ≠ Outcome.ok n) ∧
      (∀ sid x0, req2.toAddr ≠ "" → req2.fromAddr ≠ "" → req2.min ≠ [] → req2.max ≠ [] →
        rem2.lockGot = true → req2.shardId = some sid →
        (moveChunk env rem req w).2.chunks.find? (fun c => c.id == sid) = some x0 →
        x0.shard = env.shardName req2.fromAddr →
        moveChunk env rem2 req2 (moveChunk env rem req w).2 =
          (Outcome.failed "official version less than mine?", (moveChunk env rem req w).2))) ∧
    (∀ (rem2 : Remote), rem2.lockGot = true →
      moveChunk env rem2 req (moveChunk env rem req w).2 =
        (Outcome.failed "official version less than mine?", (moveChunk env rem req w).2)) := by
  obtain ⟨hvs, hch, hen, sid, x0, hsid, hx0, hsh⟩ :=
    moveChunk_commit_failure_world env rem req w hsent hfresh hfail
  have hne : (moveChunk env rem req w).2.sent ≠ w.sent := by
    intro h
    rw [h] at hsent
    exact hfresh hsent
  obtain ⟨h1, h2, h3, h4, h5, _, _⟩ := moveChunk_checks_of_sent env rem req w hne
  have hver : getVersion (moveChunk env rem req w).2.versions req.ns =
      readMaxVersion w.chunks req.ns + 1 := by
    rw [hvs, getVersion_setVersion]
  have hmax : readMaxVersion (moveChunk env rem req w).2.chunks req.ns =
      readMaxVersion w.chunks req.ns := by
    rw [hch]
  have hw : ({ (moveChunk env rem req w).2 with shardingEnabled := true } : World) =
      (moveChunk env rem req w).2 := by
    cases hq : (moveChunk env rem req w).2
    rw [hq] at hen
    simp only at hen
    subst hen
    rfl
  have hstale : ∀ req2 : MoveChunkRequest, req2.ns = req.ns →
      readMaxVersion (moveChunk env rem req w).2.chunks req2.ns <
        getVersion (moveChunk env rem req w).2.versions req2.ns := by
    intro req2 hns
    rw [hns, hver, hmax]
    exact Nat.lt_succ_self _
  have hgen : ∀ (rem2 : Remote) (req2 : MoveChunkRequest) (sid2 : BSONValue)
      (y0 : ChunkRecord), req2.ns = req.ns →
      req2.toAddr ≠ "" → req2.fromAddr ≠ "" → req2.min ≠ [] → req2.max ≠ [] →
      rem2.lockGot = true → req2.shardId = some sid2 →
      (moveChunk env rem req w).2.chunks.find? (fun c => c.id == sid2) = some y0 →
      y0.shard = env.shardName req2.fromAddr →
      moveChunk env rem2 req2 (moveChunk env rem req w).2 =
        (Outcome.failed "official version less than mine?", (moveChunk env rem req w).2) := by
    intro rem2 req2 sid2 y0 hns g2 g3 g4 g5 glock gsid gx gsh
    have g1 : req2.ns ≠ "" := by rw [hns]; exact h1
    have hrej := moveChunk_stale_reject env rem2 req2 (moveChunk env rem req w).2 sid2 y0
      g1 g2 g3 g4 g5 (by simp [hen]) glock gsid gx gsh (hstale req2 hns)
    rw [hrej, hw]
  refine ⟨hver, hmax, ?_, ?_⟩
  · intro rem2 req2 hns
    refine ⟨?_, ?_, ?_⟩
    · rcases moveChunk_cases env rem2 req2 (moveChunk env rem req w).2 with
        ⟨_, h | h⟩ | ⟨_, _, _, _, _, _, hv, _, _⟩
      · exact h
      · rw [h, hw]
      · exact absurd (hstale req2 hns) (Nat.not_lt.mpr hv)
    · rcases moveChunk_cases env rem2 req2 (moveChunk env rem req w).2 with
        ⟨hno, _⟩ | ⟨_, _, _, _, _, _, hv, _, _⟩
      · exact hno
      · exact absurd (hstale req2 hns) (Nat.not_lt.mpr hv)
    · intro sid2 y0 g2 g3 g4 g5 glock gsid gx gsh
      exact hgen rem2 req2 sid2 y0 hns g2 g3 g4 g5 glock gsid gx gsh
  · intro rem2 hlock
    exact hgen rem2 req sid x0 rfl h2 h3 h4 h5 hlock hsid (by rw [hch]; exact hx0) hsh

/-- Witness for C17: the move of `fooChunk` refused at the commit, then tried
again, and then tried for the other chunk of the collection, `barChunk`, with
another recipient. -/
theorem moveChunk_retry_rejected_witness :
    "_recvChunkCommit" ∈
      (moveChunk listExternals failingCommitRemote fooRequest twoChunkWorld).2.sent ∧
    "_recvChunkCommit" ∉ twoChunkWorld.sent ∧
    failingCommitRemote.commitOk = false ∧
    steadyRemote.lockGot = true ∧
    barRequest.ns = fooRequest.ns ∧
    (moveChunk listExternals steadyRemote fooRequest
      (moveChunk listExternals failingCommitRemote fooRequest twoChunkWorld).2).1 =
      Outcome.failed "official version less than mine?" ∧
    (moveChunk listExternals steadyRemote barRequest
      (moveChunk listExternals failingCommitRemote fooRequest twoChunkWorld).2).2 =
      (moveChunk listExternals failingCommitRemote fooRequest twoChunkWorld).2 :=
  ⟨by decide, by decide, by decide, by decide, by decide,
    congrArg Prod.fst
      ((moveChunk_retry_rejected listExternals failingCommitRemote fooRequest twoChunkWorld
        (by decide) (by decide) (by decide)).2.2.2 steadyRemote (by decide)),
    ((moveChunk_retry_rejected listExternals failingCommitRemote fooRequest twoChunkWorld
        (by decide) (by decide) (by decide)).2.2.1 steadyRemote barRequest (by decide)).1⟩

/-! ## Theorems: the recipient state machine -/

/-- A STEADY loop that ends on a failed `_transferMods` has received a failed
reply with the text it reports. -/
theorem steadyLoop_failed (env : Externals) (feed : DonorFeed) :
    ∀ (fuel k j : Nat) (store store1 : Store) (text : String),
      steadyLoop env feed fuel k j store = some (SteadyExit.failed text store1) →
      ∃ k1, feed.mods k1 = ModsReply.failed text := by
  intro fuel
  induction fuel with
  | zero =>
    intro k j store store1 text h
    simp [steadyLoop] at h
  | succ n ih =>
    intro k j store store1 text h
    unfold steadyLoop at h
    cases hm : feed.mods k with
    | failed t =>
      simp only [hm, Option.some.injEq, SteadyExit.failed.injEq] at h
      exact ⟨k, by rw [hm, h.1]⟩
    | ok res =>
      simp only [hm] at h
      split at h
      · simp at h
      · split_ifs at h
        · simp at h
        · exact ih _ _ _ _ _ h

/-- The recipient's `apply` fails exactly on a reply that carries a "deleted"
array. -/
theorem apply_eq_none_iff (env : Externals) (store : Store) (res : ModsBatch) :
    apply env store res = none ↔ res.deleted.isSome = true := by
  unfold apply
  by_cases h : res.deleted.isSome = true
  · simp [h]
  · simp only [h, if_false, iff_false]
    cases res.reload <;> simp

/-- How a STEADY loop that has ended went: for some `n`, the first `n` replies
were successes with the commit not yet requested, and the next reply decided:
a failed reply ends the loop with its text, a success with the commit
requested ends it by `break`, a success whose batch `apply` refuses ends it by
an exception. -/
theorem steadyLoop_inv (env : Externals) (feed : DonorFeed) :
    ∀ (fuel k j : Nat) (store : Store) (ex : SteadyExit),
      steadyLoop env feed fuel k j store = some ex →
      ∃ n, n < fuel ∧
        (∀ i, i < n → ∃ res, feed.mods (k + i) = ModsReply.ok res ∧
          feed.commitSeen (j + i) = false) ∧
        (∀ store1, ex = SteadyExit.committed store1 →
          (∃ res, feed.mods (k + n) = ModsReply.ok res) ∧ feed.commitSeen (j + n) = true) ∧
        (∀ text store1, ex = SteadyExit.failed text store1 →
          feed.mods (k + n) = ModsReply.failed text) ∧
        (∀ what store1, ex = SteadyExit.threw what store1 →
          ∃ res, feed.mods (k + n) = ModsReply.ok res ∧ 0 < res.size ∧
            res.deleted.isSome = true) := by
  intro fuel
  induction fuel with
  | zero =>
    intro k j store ex h
    simp [steadyLoop] at h
  | succ m ih =>
    intro k j store ex h
    unfold steadyLoop at h
    cases hm : feed.mods k with
    | failed t =>
      simp only [hm, Option.some.injEq] at h
      subst h
      refine ⟨0, Nat.succ_pos m, (fun i hi => absurd hi (Nat.not_lt_zero i)), ?_, ?_, ?_⟩
      · intro store1 e
        cases e
      · intro text store1 e
        simp only [SteadyExit.failed.injEq] at e
        rw [Nat.add_zero, hm, e.1]
      · intro what store1 e
        cases e
    | ok res =>
      simp only [hm] at h
      by_cases hsz : res.size > 0
      · simp only [hsz, if_true] at h
        cases ha : apply env store res with
        | none =>
          simp only [ha, Option.some.injEq] at h
          subst h
          refine ⟨0, Nat.succ_pos m, (fun i hi => absurd hi (Nat.not_lt_zero i)), ?_, ?_, ?_⟩
          · intro store1 e
            cases e
          · intro text store1 e
            cases e
          · intro what store1 _
            exact ⟨res, by rw [Nat.add_zero, hm], hsz, (apply_eq_none_iff env store res).mp ha⟩
        | some store2 =>
          simp only [ha] at h
          by_cases hc : feed.commitSeen j = true
          · simp only [hc, if_true, Option.some.injEq] at h
            subst h
            refine ⟨0, Nat.succ_pos m, (fun i hi => absurd hi (Nat.not_lt_zero i)), ?_, ?_, ?_⟩
            · intro store1 _
              exact ⟨⟨res, by rw [Nat.add_zero, hm]⟩, by rw [Nat.add_zero, hc]⟩
            · intro text store1 e
              cases e
            · intro what store1 e
              cases e
          · simp only [hc] at h
            obtain ⟨n, hn, hq, h1, h2, h3⟩ := ih (k + 1) (j + 1) store2 ex (by simpa using h)
            have ek : ∀ i, k + 1 + i = k + (i + 1) := fun i => by omega
            have ej : ∀ i, j + 1 + i = j + (i + 1) := fun i => by omega
            refine ⟨n + 1, Nat.succ_lt_succ hn, ?_, ?_, ?_, ?_⟩
            · intro i hi
              cases i with
              | zero => exact ⟨res, by rw [Nat.add_zero, hm], by simpa using hc⟩
              | succ i =>
                obtain ⟨r2, hr2, hc2⟩ := hq i (Nat.lt_of_succ_lt_succ hi)
                exact ⟨r2, by rw [← ek, hr2], by rw [← ej, hc2]⟩
            · intro store1 e
              obtain ⟨⟨r2, hr2⟩, hc2⟩ := h1 store1 e
              exact ⟨⟨r2, by rw [← ek, hr2]⟩, by rw [← ej, hc2]⟩
            · intro text store1 e
              rw [← ek]
              exact h2 text store1 e
            · intro what store1 e
              obtain ⟨r2, hr2, hrest⟩ := h3 what store1 e
              exact ⟨r2, by rw [← ek, hr2], hrest⟩
      · simp only [hsz, if_false] at h
        by_cases hc : feed.commitSeen j = true
        · simp only [hc, if_true, Option.some.injEq] at h
          subst h
          refine ⟨0, Nat.succ_pos m, (fun i hi => absurd hi (Nat.not_lt_zero i)), ?_, ?_, ?_⟩
          · intro store1 _
            exact ⟨⟨res, by rw [Nat.add_zero, hm]⟩, by rw [Nat.add_zero, hc]⟩
          · intro text store1 e
            cases e
          · intro what store1 e
            cases e
        · simp only [hc] at h
          obtain ⟨n, hn, hq, h1, h2, h3⟩ := ih (k + 1) (j + 1) store ex (by simpa using h)
          have ek : ∀ i, k + 1 + i = k + (i + 1) := fun i => by omega
          have ej : ∀ i, j + 1 + i = j + (i + 1) := fun i => by omega
          refine ⟨n + 1, Nat.succ_lt_succ hn, ?_, ?_, ?_, ?_⟩
          · intro i hi
            cases i with
            | zero => exact ⟨res, by rw [Nat.add_zero, hm], by simpa using hc⟩
            | succ i =>
              obtain ⟨r2, hr2, hc2⟩ := hq i (Nat.lt_of_succ_lt_succ hi)
              exact ⟨r2, by rw [← ek, hr2], by rw [← ej, hc2]⟩
          · intro store1 e
            obtain ⟨⟨r2, hr2⟩, hc2⟩ := h1 store1 e
            exact ⟨⟨r2, by rw [← ek, hr2]⟩, by rw [← ej, hc2]⟩
          · intro text store1 e
            rw [← ek]
            exact h2 text store1 e
          · intro what store1 e
            obtain ⟨r2, hr2, hrest⟩ := h3 what store1 e
            exact ⟨r2, by rw [← ek, hr2], hrest⟩

/-- A CATCHUP loop fed with `n` non-empty batches that `apply` accepts and then
with an empty batch is left by `break` after `n + 1` calls, given the fuel. -/
theorem catchupLoop_run (env : Externals) (feed : DonorFeed) :
    ∀ (n fuel k : Nat) (store : Store), n < fuel →
      (∀ i, i < n → ∃ res, feed.mods (k + i) = ModsReply.ok res ∧ res.size ≠ 0 ∧
        res.deleted = none) →
      (∃ res, feed.mods (k + n) = ModsReply.ok res ∧ res.size = 0) →
      ∃ store1, catchupLoop env feed fuel k store = some (CatchupExit.left store1 (k + n + 1)) := by
  intro n
  induction n with
  | zero =>
    intro fuel k store hf _ hlast
    obtain ⟨res, hres, hz⟩ := hlast
    cases fuel with
    | zero => exact absurd hf (Nat.lt_irrefl 0)
    | succ m =>
      rw [Nat.add_zero] at hres
      exact ⟨store, by simp [catchupLoop, hres, catchupStops, hz]⟩
  | succ n ih =>
    intro fuel k store hf hq hlast
    cases fuel with
    | zero => exact absurd hf (Nat.not_lt_zero _)
    | succ m =>
      obtain ⟨res, hres, hnz, hdel⟩ := hq 0 (Nat.succ_pos n)
      rw [Nat.add_zero] at hres
      have hap : ∃ store2, apply env store res = some store2 := by
        cases ha : apply env store res with
        | none =>
          have := (apply_eq_none_iff env store res).mp ha
          rw [hdel] at this
          cases this
        | some store2 => exact ⟨store2, rfl⟩
      obtain ⟨store2, hap2⟩ := hap
      have ek : ∀ i, k + 1 + i = k + (i + 1) := fun i => by omega
      obtain ⟨store1, h1⟩ := ih m (k + 1) store2 (Nat.lt_of_succ_lt_succ hf)
        (fun i hi => by
          obtain ⟨r2, hr2, hrest⟩ := hq (i + 1) (Nat.succ_lt_succ hi)
          exact ⟨r2, by rw [ek, hr2], hrest⟩)
        (by
          obtain ⟨r2, hr2, hz⟩ := hlast
          exact ⟨r2, by rw [ek, hr2], hz⟩)
      refine ⟨store1, ?_⟩
      have e : k + 1 + n + 1 = k + (n + 1) + 1 := by omega
      rw [e] at h1
      simp [catchupLoop, hres, catchupStops, hnz, hap2, h1]

/-- A STEADY loop fed with `n` successful replies that `apply` accepts, the
commit not being requested, ends on the next reply, given the fuel: on a
failed reply by the `return` with the text of the reply, on a success with
the commit requested by `break`. -/
theorem steadyLoop_run (env : Externals) (feed : DonorFeed) :
    ∀ (n fuel k j : Nat) (store : Store), n < fuel →
      (∀ i, i < n → ∃ res, feed.mods (k + i) = ModsReply.ok res ∧
        (0 < res.size → res.deleted = none) ∧ feed.commitSeen (j + i) = false) →
      (∀ text, feed.mods (k + n) = ModsReply.failed text →
        ∃ store1, steadyLoop env feed fuel k j store = some (SteadyExit.failed text store1)) ∧
      (∀ res, feed.mods (k + n) = ModsReply.ok res → (0 < res.size → res.deleted = none) →
        feed.commitSeen (j + n) = true →
        ∃ store1, steadyLoop env feed fuel k j store = some (SteadyExit.committed store1)) := by
  have hap : ∀ (store : Store) (res : ModsBatch), (0 < res.size → res.deleted = none) →
      ∃ store2, (if res.size > 0 then apply env store res else some store) = some store2 := by
    intro store res hd
    by_cases hsz : res.size > 0
    · simp only [hsz, if_true]
      cases ha : apply env store res with
      | none =>
        have := (apply_eq_none_iff env store res).mp ha
        rw [hd hsz] at this
        cases this
      | some store2 => exact ⟨store2, rfl⟩
    · simp only [hsz, if_false]
      exact ⟨store, rfl⟩
  intro n
  induction n with
  | zero =>
    intro fuel k j store hf _
    cases fuel with
    | zero => exact absurd hf (Nat.lt_irrefl 0)
    | succ m =>
      constructor
      · intro text ht
        rw [Nat.add_zero] at ht
        exact ⟨store, by simp [steadyLoop, ht]⟩
      · intro res hres hd hc
        rw [Nat.add_zero] at hres hc
        obtain ⟨store2, h2⟩ := hap store res hd
        refine ⟨store2, ?_⟩
        unfold steadyLoop
        simp only [hres, h2, hc, if_true]
  | succ n ih =>
    intro fuel k j store hf hq
    cases fuel with
    | zero => exact absurd hf (Nat.not_lt_zero _)
    | succ m =>
      obtain ⟨res, hres, hd, hc⟩ := hq 0 (Nat.succ_pos n)
      rw [Nat.add_zero] at hres hc
      obtain ⟨store2, h2⟩ := hap store res hd
      have ek : ∀ i, k + 1 + i = k + (i + 1) := fun i => by omega
      have ej : ∀ i, j + 1 + i = j + (i + 1) := fun i => by omega
      obtain ⟨g1, g2⟩ := ih m (k + 1) (j + 1) store2 (Nat.lt_of_succ_lt_succ hf)
        (fun i hi => by
          obtain ⟨r2, hr2, hd2, hc2⟩ := hq (i + 1) (Nat.succ_lt_succ hi)
          exact ⟨r2, by rw [ek, hr2], hd2, by rw [ej, hc2]⟩)
      have hstep : steadyLoop env feed (m + 1) k j store =
          steadyLoop env feed m (k + 1) (j + 1) store2 := by
        conv => lhs; unfold steadyLoop
        simp only [hres, h2, hc]
        simp
      rw [hstep]
      constructor
      · intro text ht
        exact g1 text (by rw [ek, ht])
      · intro r3 hr3 hd3 hc3
        exact g2 r3 (by rw [ek, hr3]) hd3 (by rw [ej, hc3])

/-- What `_go` leaves behind, by the way it is left, when started from a prepared
state: at its end the state is DONE and the states gone through are CLONE,
CATCHUP, STEADY, COMMIT_START, DONE; after the `return` in STEADY the state
is FAIL and `errmsg` is the text of a failed `_transferMods` reply. -/
theorem go_body_spec (env : Externals) (feed : DonorFeed) (fuel : Nat) (r r1 : Recipient)
    (ex : GoExit) (h : _go env feed fuel r = some (ex, r1)) :
    (ex = GoExit.finished →
      r1.status.state = State.DONE ∧
      r1.history = r.history ++
        [State.CLONE, State.CATCHUP, State.STEADY, State.COMMIT_START, State.DONE]) ∧
    (ex = GoExit.steadyFailed →
      r1.status.state = State.FAIL ∧
      ∃ k text, feed.mods k = ModsReply.failed text ∧ r1.status.errmsg = text) := by
  unfold _go at h
  split_ifs at h
  all_goals try (simp only [Option.some.injEq, Prod.mk.injEq] at h; obtain ⟨h1, _⟩ := h;
                 subst h1; exact ⟨(fun e => by cases e), (fun e => by cases e)⟩)
  split at h
  · simp only [Option.some.injEq, Prod.mk.injEq] at h
    obtain ⟨h1, _⟩ := h
    subst h1
    exact ⟨(fun e => by cases e), (fun e => by cases e)⟩
  · dsimp only at h
    split at h
    · cases h
    · simp only [Option.some.injEq, Prod.mk.injEq] at h
      obtain ⟨h1, _⟩ := h
      subst h1
      exact ⟨(fun e => by cases e), (fun e => by cases e)⟩
    · split at h
      · cases h
      · simp only [Option.some.injEq, Prod.mk.injEq] at h
        obtain ⟨h1, _⟩ := h
        subst h1
        exact ⟨(fun e => by cases e), (fun e => by cases e)⟩
      · rename_i text store1 hs
        simp only [Option.some.injEq, Prod.mk.injEq] at h
        obtain ⟨h1, h2⟩ := h
        subst h1
        subst h2
        refine ⟨(fun e => by cases e), fun _ => ⟨rfl, ?_⟩⟩
        obtain ⟨k1, hk1⟩ := steadyLoop_failed env feed _ _ _ _ _ _ hs
        exact ⟨k1, text, hk1, rfl⟩
      · simp only [Option.some.injEq, Prod.mk.injEq] at h
        obtain ⟨h1, h2⟩ := h
        subst h1
        subst h2
        refine ⟨fun _ => ⟨rfl, ?_⟩, (fun e => by cases e)⟩
        simp [setState]

/-- The way through `_go` when it is left at its end or by the `return` in
STEADY: it was started active and in READY, the connection and the clone
worked, the CATCHUP loop was left by `break`, and the STEADY loop ended by
`break` or on a failed reply, whose text is then `errmsg`. -/
theorem go_body_loops (env : Externals) (feed : DonorFeed) (fuel : Nat) (r r1 : Recipient)
    (ex : GoExit) (h : _go env feed fuel r = some (ex, r1))
    (hex : ex = GoExit.finished ∨ ex = GoExit.steadyFailed) :
    r.status.active = true ∧ r.status.state = State.READY ∧
    feed.connectOk = true ∧ feed.cloneThrows = false ∧
    ∃ store1 store2 c,
      catchupLoop env feed fuel 0 (feed.cloneDocs.foldl env.upsert r.store) =
        some (CatchupExit.left store1 c) ∧
      (ex = GoExit.finished →
        steadyLoop env feed fuel c 0 store1 = some (SteadyExit.committed store2)) ∧
      (ex = GoExit.steadyFailed →
        ∃ text, steadyLoop env feed fuel c 0 store1 = some (SteadyExit.failed text store2) ∧
          r1.status.errmsg = text) := by
  have hthrew : ∀ what, GoExit.threw what = ex → False := by
    intro what e
    rcases hex with e2 | e2 <;> (rw [e2] at e; cases e)
  by_cases h1 : r.status.active = false
  · simp [_go, h1] at h
    exact absurd h.1 (fun e => hthrew _ e)
  by_cases h2 : r.status.state ≠ State.READY
  · simp [_go, h1, h2] at h
    exact absurd h.1 (fun e => hthrew _ e)
  by_cases h3 : r.status.min = []
  · simp [_go, h1, h2, h3] at h
    exact absurd h.1 (fun e => hthrew _ e)
  by_cases h4 : r.status.max = []
  · simp [_go, h1, h2, h3, h4] at h
    exact absurd h.1 (fun e => hthrew _ e)
  by_cases h5 : feed.connectOk = false
  · simp [_go, h1, h2, h3, h4, h5] at h
    exact absurd h.1 (fun e => hthrew _ e)
  by_cases h6 : feed.cloneThrows = true
  · simp [_go, h1, h2, h3, h4, h5, h6] at h
    exact absurd h.1 (fun e => hthrew _ e)
  cases hi : feed.indexes with
  | none =>
    simp [_go, h1, h2, h3, h4, h5, h6, hi] at h
    exact absurd h.1 (fun e => hthrew _ e)
  | some idx =>
    refine ⟨by simpa using h1, not_not.mp h2, by simpa using h5, by simpa using h6, ?_⟩
    cases hc : catchupLoop env feed fuel 0 (feed.cloneDocs.foldl env.upsert r.store) with
    | none =>
      simp [_go, h1, h2, h3, h4, h5, h6, hi, setState, hc] at h
    | some cex =>
      cases cex with
      | threw what store1 =>
        simp [_go, h1, h2, h3, h4, h5, h6, hi, setState, hc] at h
        exact absurd h.1 (fun e => hthrew _ e)
      | left store1 c =>
        cases hs : steadyLoop env feed fuel c 0 store1 with
        | none =>
          simp [_go, h1, h2, h3, h4, h5, h6, hi, setState, hc, hs] at h
        | some sex =>
          cases sex with
          | threw what store2 =>
            simp [_go, h1, h2, h3, h4, h5, h6, hi, setState, hc, hs] at h
            exact absurd h.1 (fun e => hthrew _ e)
          | failed text store2 =>
            simp [_go, h1, h2, h3, h4, h5, h6, hi, setState, hc, hs] at h
            obtain ⟨he, hr⟩ := h
            refine ⟨store1, store2, c, rfl, ?_, ?_⟩
            · intro e
              rw [e] at he
              cases he
            · intro _
              exact ⟨text, hs, by rw [← hr]⟩
          | committed store2 =>
            simp [_go, h1, h2, h3, h4, h5, h6, hi, setState, hc, hs] at h
            obtain ⟨he, _⟩ := h
            refine ⟨store1, store2, c, rfl, ?_, ?_⟩
            · intro _
              exact hs
            · intro e
              rw [e] at he
              cases he

/-- A run of `go` from a prepared state whose connection and clone work and
whose CATCHUP loop is left by `break`: when the STEADY loop ends on a failed
reply, `go` returns in FAIL with the text of that reply as `errmsg`; when it
ends by `break`, `go` returns in DONE; in both cases not active. -/
theorem go_run (env : Externals) (feed : DonorFeed) (fuel : Nat) (r : Recipient)
    (idx : List BSONObj) (store1 : Store) (c : Nat)
    (hact : r.status.active = true) (hready : r.status.state = State.READY)
    (hmin : r.status.min ≠ []) (hmax : r.status.max ≠ [])
    (hconn : feed.connectOk = true) (hclone : feed.cloneThrows = false)
    (hidx : feed.indexes = some idx)
    (hcatch : catchupLoop env feed fuel 0 (feed.cloneDocs.foldl env.upsert r.store) =
      some (CatchupExit.left store1 c)) :
    (∀ text store2, steadyLoop env feed fuel c 0 store1 = some (SteadyExit.failed text store2) →
      ∃ r1, go env feed fuel r = some r1 ∧ r1.status.state = State.FAIL ∧
        r1.status.errmsg = text ∧ r1.status.active = false) ∧
    (∀ store2, steadyLoop env feed fuel c 0 store1 = some (SteadyExit.committed store2) →
      ∃ r1, go env feed fuel r = some r1 ∧ r1.status.state = State.DONE ∧
        r1.status.active = false) := by
  constructor
  · intro text store2 hs
    have hg : ∃ r0, _go env feed fuel r = some (GoExit.steadyFailed, r0) ∧
        r0.status.state = State.FAIL ∧ r0.status.errmsg = text := by
      simp [_go, hact, hready, hmin, hmax, hconn, hclone, hidx, setState, hcatch, hs]
    obtain ⟨r0, h0, hst, he⟩ := hg
    refine ⟨{ r0 with status := { r0.status with active := false } }, ?_, hst, he, rfl⟩
    simp only [go, h0]
  · intro store2 hs
    have hg : ∃ r0, _go env feed fuel r = some (GoExit.finished, r0) ∧
        r0.status.state = State.DONE := by
      simp [_go, hact, hready, hmin, hmax, hconn, hclone, hidx, setState, hcatch, hs]
    obtain ⟨r0, h0, hst⟩ := hg
    refine ⟨{ r0 with status := { r0.status with active := false } }, ?_, hst, rfl⟩
    simp only [go, h0]

/-- The state `go` returns in, by the way `_go` was left: `active`
is false and `state` is DONE or FAIL.  The state is FAIL exactly when `_go`
was not left at its end, that is when it threw, with `errmsg` the exception
text, or returned after a failed `_transferMods` in STEADY, with `errmsg` the
text of that reply; it is DONE exactly when `_go` ran to its end, and then
the states gone through during the run are CLONE, CATCHUP, STEADY,
COMMIT_START and DONE, in that order. -/
theorem go_exit_state (env : Externals) (feed : DonorFeed) (fuel : Nat)
    (r r1 : Recipient) (hgo : go env feed fuel r = some r1) :
    r1.status.active = false ∧
    (r1.status.state = State.DONE ∨ r1.status.state = State.FAIL) ∧
    ∃ ex r0, _go env feed fuel r = some (ex, r0) ∧
      (r1.status.state = State.FAIL ↔ ex ≠ GoExit.finished) ∧
      (r1.status.state = State.DONE ↔ ex = GoExit.finished) ∧
      (∀ what, ex = GoExit.threw what → r1.status.errmsg = what) ∧
      (ex = GoExit.steadyFailed →
        ∃ k text, feed.mods k = ModsReply.failed text ∧ r1.status.errmsg = text) ∧
      (r1.status.state = State.DONE →
        r1.history = r.history ++
          [State.CLONE, State.CATCHUP, State.STEADY, State.COMMIT_START, State.DONE]) := by
  unfold go at hgo
  cases hg : _go env feed fuel r with
  | none =>
    rw [hg] at hgo
    cases hgo
  | some p =>
    obtain ⟨ex, r0⟩ := p
    obtain ⟨hfin, hsf⟩ := go_body_spec env feed fuel r r0 ex hg
    rw [hg] at hgo
    cases ex with
    | finished =>
      simp only [Option.some.injEq] at hgo
      subst hgo
      obtain ⟨hst, hh⟩ := hfin rfl
      refine ⟨rfl, Or.inl hst, GoExit.finished, r0, rfl, ?_, ?_, ?_, ?_, ?_⟩
      · show r0.status.state = State.FAIL ↔ _
        simp [hst]
      · show r0.status.state = State.DONE ↔ _
        simp [hst]
      · intro what e
        cases e
      · intro e
        cases e
      · intro _
        exact hh
    | steadyFailed =>
      simp only [Option.some.injEq] at hgo
      subst hgo
      obtain ⟨hst, k, text, hk, he⟩ := hsf rfl
      refine ⟨rfl, Or.inr hst, GoExit.steadyFailed, r0, rfl, ?_, ?_, ?_, ?_, ?_⟩
      · show r0.status.state = State.FAIL ↔ _
        simp [hst]
      · show r0.status.state = State.DONE ↔ _
        simp [hst]
      · intro what e
        cases e
      · intro _
        exact ⟨k, text, hk, he⟩
      · intro hd
        have : r0.status.state = State.DONE := hd
        rw [hst] at this
        cases this
    | threw what =>
      simp only [Option.some.injEq] at hgo
      subst hgo
      refine ⟨rfl, Or.inr rfl, GoExit.threw what, r0, rfl, ?_, ?_, ?_, ?_, ?_⟩
      · simp [setState]
      · simp [setState]
      · intro w2 e
        cases e
        rfl
      · intro e
        cases e
      · intro hd
        simp [setState] at hd

/-- C12: when `go` returns (from a prepared state as from any other), `active`
is false and `state` is DONE or FAIL.  The state is FAIL exactly when `_go`
was not left at its end, that is when it threw, with `errmsg` the exception
text, or returned after a failed `_transferMods` in STEADY, with `errmsg` the
text of that reply; it is DONE exactly when `_go` ran to its end.  A run that
ends in DONE was started active and in READY, has gone through CLONE,
CATCHUP, STEADY, COMMIT_START and DONE in that order, and every
`_transferMods` reply it received was a success: the CATCHUP loop ran on
non-empty batches up to the first empty one, and the STEADY loop ran on
successful replies until the commit was requested.  Conversely, from a
prepared state with a working connection and clone, a failed `_transferMods`
reply received in STEADY (after a CATCHUP phase that ended on an empty batch
and STEADY polls that succeeded with no commit requested) makes `go` return
in FAIL with the text of that reply as `errmsg`, and a successful reply with
the commit requested makes it return in DONE, given the fuel for the polls. -/
theorem go_final_state (env : Externals) (feed : DonorFeed) (fuel : Nat) (r : Recipient) :
    (∀ r1, go env feed fuel r = some r1 →
      r1.status.active = false ∧
      (r1.status.state = State.DONE ∨ r1.status.state = State.FAIL) ∧
      (∃ ex r0, _go env feed fuel r = some (ex, r0) ∧
        (r1.status.state = State.FAIL ↔ ex ≠ GoExit.finished) ∧
        (r1.status.state = State.DONE ↔ ex = GoExit.finished) ∧
        (∀ what, ex = GoExit.threw what → r1.status.errmsg = what) ∧
        (ex = GoExit.steadyFailed →
          ∃ k text, feed.mods k = ModsReply.failed text ∧ r1.status.errmsg = text)) ∧
      (r1.status.state = State.DONE →
        r1.history = r.history ++
          [State.CLONE, State.CATCHUP, State.STEADY, State.COMMIT_START, State.DONE] ∧
        r.status.active = true ∧ r.status.state = State.READY ∧
        feed.connectOk = true ∧ feed.cloneThrows = false ∧
        ∃ c n, 0 < c ∧
          (∃ res, feed.mods (c - 1) = ModsReply.ok res ∧ res.size = 0) ∧
          (∀ i, i + 1 < c → ∃ res, feed.mods i = ModsReply.ok res ∧ res.size ≠ 0) ∧
          (∀ i, i ≤ n → ∃ res, feed.mods (c + i) = ModsReply.ok res) ∧
          (∀ i, i < n → feed.commitSeen i = false) ∧
          feed.commitSeen n = true)) ∧
    (∀ (nc m : Nat) (text : String) (idx : List BSONObj),
      r.status.active = true → r.status.state = State.READY →
      r.status.min ≠ [] → r.status.max ≠ [] →
      feed.connectOk = true → feed.cloneThrows = false → feed.indexes = some idx →
      nc < fuel → m < fuel →
      (∀ i, i < nc → ∃ res, feed.mods i = ModsReply.ok res ∧ res.size ≠ 0 ∧
        res.deleted = none) →
      (∃ res, feed.mods nc = ModsReply.ok res ∧ res.size = 0) →
      (∀ i, i < m → ∃ res, feed.mods (nc + 1 + i) = ModsReply.ok res ∧
        (0 < res.size → res.deleted = none) ∧ feed.commitSeen i = false) →
      feed.mods (nc + 1 + m) = ModsReply.failed text →
      ∃ r1, go env feed fuel r = some r1 ∧ r1.status.state = State.FAIL ∧
        r1.status.errmsg = text ∧ r1.status.active = false) ∧
    (∀ (nc m : Nat) (last : ModsBatch) (idx : List BSONObj),
      r.status.active = true → r.status.state = State.READY →
      r.status.min ≠ [] → r.status.max ≠ [] →
      feed.connectOk = true → feed.cloneThrows = false → feed.indexes = some idx →
      nc < fuel → m < fuel →
      (∀ i, i < nc → ∃ res, feed.mods i = ModsReply.ok res ∧ res.size ≠ 0 ∧
        res.deleted = none) →
      (∃ res, feed.mods nc = ModsReply.ok res ∧ res.size = 0) →
      (∀ i, i < m → ∃ res, feed.mods (nc + 1 + i) = ModsReply.ok res ∧
        (0 < res.size → res.deleted = none) ∧ feed.commitSeen i = false) →
      feed.mods (nc + 1 + m) = ModsReply.ok last → (0 < last.size → last.deleted = none) →
      feed.commitSeen m = true →
      ∃ r1, go env feed fuel r = some r1 ∧ r1.status.state = State.DONE ∧
        r1.status.active = false) := by
  have hloops : ∀ (nc m : Nat) (idx : List BSONObj),
      nc < fuel → m < fuel →
      (∀ i, i < nc → ∃ res, feed.mods i = ModsReply.ok res ∧ res.size ≠ 0 ∧
        res.deleted = none) →
      (∃ res, feed.mods nc = ModsReply.ok res ∧ res.size = 0) →
      (∀ i, i < m → ∃ res, feed.mods (nc + 1 + i) = ModsReply.ok res ∧
        (0 < res.size → res.deleted = none) ∧ feed.commitSeen i = false) →
      ∃ store1,
        catchupLoop env feed fuel 0 (feed.cloneDocs.foldl env.upsert r.store) =
          some (CatchupExit.left store1 (nc + 1)) ∧
        (∀ text, feed.mods (nc + 1 + m) = ModsReply.failed text →
          ∃ store2, steadyLoop env feed fuel (nc + 1) 0 store1 =
            some (SteadyExit.failed text store2)) ∧
        (∀ res, feed.mods (nc + 1 + m) = ModsReply.ok res →
          (0 < res.size → res.deleted = none) → feed.commitSeen m = true →
          ∃ store2, steadyLoop env feed fuel (nc + 1) 0 store1 =
            some (SteadyExit.committed store2)) := by
    intro nc m idx hnc hm hq hlast hsq
    obtain ⟨store1, hc⟩ := catchupLoop_run env feed nc fuel 0
      (feed.cloneDocs.foldl env.upsert r.store) hnc
      (fun i hi => by rw [Nat.zero_add]; exact hq i hi)
      (by rw [Nat.zero_add]; exact hlast)
    have e0 : 0 + nc + 1 = nc + 1 := by omega
    rw [e0] at hc
    obtain ⟨g1, g2⟩ := steadyLoop_run env feed m fuel (nc + 1) 0 store1 hm
      (fun i hi => by rw [Nat.zero_add]; exact hsq i hi)
    refine ⟨store1, hc, g1, ?_⟩
    intro res hres hd hcs
    exact g2 res hres hd (by rw [Nat.zero_add]; exact hcs)
  refine ⟨?_, ?_, ?_⟩
  · intro r1 hgo
    obtain ⟨hact, hst, ex, r0, hg, hF, hD, hT, hS, hH⟩ := go_exit_state env feed fuel r r1 hgo
    refine ⟨hact, hst, ⟨ex, r0, hg, hF, hD, hT, hS⟩, ?_⟩
    intro hdone
    have hex : ex = GoExit.finished := hD.mp hdone
    obtain ⟨ha, hr, hco, hcl, store1, store2, c, hc, hfin, _⟩ :=
      go_body_loops env feed fuel r r0 ex hg (Or.inl hex)
    obtain ⟨hc0, ⟨res, hres, hstop⟩, hbefore⟩ := catchupLoop_left env feed fuel 0 _ _ _ hc
    obtain ⟨n, _, hq, hcm, _, _⟩ := steadyLoop_inv env feed fuel c 0 store1 _ (hfin hex)
    obtain ⟨⟨rl, hrl⟩, hcn⟩ := hcm store2 rfl
    refine ⟨hH hdone, ha, hr, hco, hcl, c, n, hc0, ⟨res, hres, by simpa [catchupStops] using hstop⟩,
      ?_, ?_, ?_, ?_⟩
    · intro i hi
      obtain ⟨r2, hr2, hf2⟩ := hbefore i (Nat.zero_le i) hi
      exact ⟨r2, hr2, by simpa [catchupStops] using hf2⟩
    · intro i hi
      by_cases hin : i < n
      · obtain ⟨r2, hr2, _⟩ := hq i hin
        exact ⟨r2, hr2⟩
      · have : i = n := by omega
        rw [this]
        exact ⟨rl, hrl⟩
    · intro i hi
      obtain ⟨_, _, hc2⟩ := hq i hi
      rw [Nat.zero_add] at hc2
      exact hc2
    · rw [Nat.zero_add] at hcn
      exact hcn
  · intro nc m text idx hact hready hmin hmax hconn hclone hidx hnc hm hq hlast hsq hfail
    obtain ⟨store1, hc, g1, _⟩ := hloops nc m idx hnc hm hq hlast hsq
    obtain ⟨store2, hs⟩ := g1 text hfail
    exact (go_run env feed fuel r idx store1 (nc + 1) hact hready hmin hmax hconn hclone hidx
      hc).1 text store2 hs
  · intro nc m last idx hact hready hmin hmax hconn hclone hidx hnc hm hq hlast hsq hok hd hcs
    obtain ⟨store1, hc, _, g2⟩ := hloops nc m idx hnc hm hq hlast hsq
    obtain ⟨store2, hs⟩ := g2 last hok hd hcs
    exact (go_run env feed fuel r idx store1 (nc + 1) hact hready hmin hmax hconn hclone hidx
      hc).2 store2 hs

/-- Witness for C12: the worker of a prepared recipient, fed by a quiet donor and
told to commit at once, returns in DONE; fed by a donor whose second
`_transferMods` reply, the first of the STEADY phase, is a failure, it returns
in FAIL with the text of that reply. -/
theorem go_final_state_witness :
    go listExternals quietFeed 5 preparedRecipient = some doneRecipient ∧
    doneRecipient.status.active = false ∧
    (doneRecipient.status.state = State.DONE ∨ doneRecipient.status.state = State.FAIL) ∧
    (∃ r1, go listExternals steadyFailFeed 5 preparedRecipient = some r1 ∧
      r1.status.state = State.FAIL ∧ r1.status.errmsg = "{ ok: 0 }" ∧
      r1.status.active = false) :=
  ⟨by decide,
    ((go_final_state listExternals quietFeed 5 preparedRecipient).1 doneRecipient
      (by decide)).1,
    ((go_final_state listExternals quietFeed 5 preparedRecipient).1 doneRecipient
      (by decide)).2.1,
    (go_final_state listExternals steadyFailFeed 5 preparedRecipient).2.1 0 0 "{ ok: 0 }" []
      (by decide) (by decide) (by decide) (by decide) (by decide) (by decide) (by decide)
      (by decide) (by decide)
      (fun i hi => absurd hi (Nat.not_lt_zero i))
      ⟨{ deleted := none, reload := none, size := 0 }, by decide, by decide⟩
      (fun i hi => absurd hi (Nat.not_lt_zero i))
      (by decide)⟩

/-- When `go` returns the recipient is not active. -/
theorem go_inactive (env : Externals) (feed : DonorFeed) (fuel : Nat)
    (r r1 : Recipient) (hgo : go env feed fuel r = some r1) : r1.status.active = false := by
  unfold go at hgo
  split at hgo
  · cases hgo
  · simp only [Option.some.injEq] at hgo
    subst hgo
    rfl
  · simp only [Option.some.injEq] at hgo
    subst hgo
    rfl

/-- C11, as stated, fails: a worker whose clone breaks off ends `go` in state
FAIL with `active = false`, and the next `_recvChunkStart` is then accepted:
it returns true with `started`, spawns a worker and resets the recipient to
READY with an empty `errmsg`. -/
theorem recvChunkStart_after_fail_counterexample :
    go listExternals brokenCloneFeed 5 preparedRecipient = some failedRecipient ∧
    failedRecipient.status.state = State.FAIL ∧
    failedRecipient.status.active = false ∧
    recvChunkStart failedRecipient.status fooStart =
      some { ok := true, errmsg := "", started := true, spawned := true,
             status := preparedStatus } := by
  decide

/-- C11 (amended): `_recvChunkStart` is rejected with
"migrate already in progress", changing no recipient state, exactly when the
recipient is active; when it is not active the command is accepted: it
prepares (READY, empty `errmsg`, counters at 0, `active`), populates `ns`,
`from`, `min` and `max`, spawns the worker and returns `started: true`.  When
`go` has returned, also in state FAIL, the recipient is not active, so the
next `_recvChunkStart` is accepted. -/
theorem recvChunkStart_spec (ms : MigrateStatus) (cmd : RecvChunkStartRequest) :
    (ms.active = true →
      recvChunkStart ms cmd =
        some { ok := false, errmsg := "migrate already in progress", started := false,
               spawned := false, status := ms }) ∧
    (ms.active = false →
      recvChunkStart ms cmd =
        some { ok := true, errmsg := "", started := true, spawned := true,
               status := { ms with state := State.READY, errmsg := "", numCloned := 0,
                                   numCatchup := 0, numSteady := 0, active := true,
                                   ns := cmd.ns, fromAddr := cmd.fromAddr, min := cmd.min,
                                   max := cmd.max } }) ∧
    (∀ (env : Externals) (feed : DonorFeed) (fuel : Nat) (r r1 : Recipient),
      go env feed fuel r = some r1 →
      ∃ res, recvChunkStart r1.status cmd = some res ∧ res.ok = true ∧ res.started = true ∧
        res.status.state = State.READY ∧ res.status.active = true) := by
  refine ⟨?_, ?_, ?_⟩
  · intro h
    simp [recvChunkStart, h]
  · intro h
    simp [recvChunkStart, prepare, h]
  · intro env feed fuel r r1 hgo
    have h := go_inactive env feed fuel r r1 hgo
    simp [recvChunkStart, prepare, h]

/-- Witness for C11 (amended): a recipient that is active rejects the command
and keeps its state. -/
theorem recvChunkStart_spec_witness :
    preparedStatus.active = true ∧
    recvChunkStart preparedStatus fooStart =
      some { ok := false, errmsg := "migrate already in progress", started := false,
             spawned := false, status := preparedStatus } :=
  ⟨by decide, (recvChunkStart_spec preparedStatus fooStart).1 (by decide)⟩

/-- The polling loop of `startCommit` sees DONE exactly when one of its polls
reads DONE. -/
theorem pollDone_iff (observe : Nat → State) :
    ∀ (n i : Nat), pollDone observe i n = true ↔ ∃ j, j < n ∧ observe (i + j) = State.DONE := by
  intro n
  induction n with
  | zero =>
    intro i
    simp [pollDone]
  | succ n ih =>
    intro i
    unfold pollDone
    by_cases h : observe i = State.DONE
    · simp only [h, if_true, true_iff]
      exact ⟨0, Nat.succ_pos n, by simpa using h⟩
    · simp only [h, if_false]
      rw [ih (i + 1)]
      constructor
      · rintro ⟨j, hj, hd⟩
        refine ⟨j + 1, Nat.succ_lt_succ hj, ?_⟩
        have e : i + (j + 1) = i + 1 + j := by omega
        rw [e]
        exact hd
      · rintro ⟨j, hj, hd⟩
        cases j with
        | zero => exact absurd (by simpa using hd) h
        | succ j =>
          refine ⟨j, Nat.lt_of_succ_lt_succ hj, ?_⟩
          have e : i + 1 + j = i + (j + 1) := by omega
          rw [e]
          exact hd

/-- C13, as stated, fails: with a worker that reaches DONE at poll 86,400, DONE
is observed within 86,400,000 polls of 1 ms, yet `startCommit` called in
STEADY returns false: its loop makes 86,400 polls, about 86 seconds. -/
theorem startCommit_late_counterexample :
    steadyStatus.state = State.STEADY ∧
    (∃ i, i < 86400000 ∧ lateDone i = State.DONE) ∧
    (startCommit steadyStatus lateDone).1 = false := by
  refine ⟨rfl, ⟨86400, by decide, by decide⟩, ?_⟩
  have h : ¬ (pollDone lateDone 0 86400 = true) := by
    rw [pollDone_iff]
    rintro ⟨j, hj, hd⟩
    simp [lateDone] at hd
    omega
  have hf : pollDone lateDone 0 86400 = false := by
    cases hp : pollDone lateDone 0 86400 with
    | false => rfl
    | true => exact absurd hp h
  have hs : ¬ (steadyStatus.state ≠ State.STEADY) := fun hne => hne rfl
  unfold startCommit
  rw [if_neg hs, hf]

/-- C13 (amended): `startCommit` called in state STEADY sets the state to
COMMIT_START and then polls for DONE up to 86,400 times at 1 ms (about 86
seconds), returning true exactly when one of these 86,400 polls reads DONE;
called in any other state it returns false and leaves the state unchanged. -/
theorem startCommit_spec (ms : MigrateStatus) (observe : Nat → State) :
    (ms.state = State.STEADY →
      (startCommit ms observe).2 = { ms with state := State.COMMIT_START } ∧
      ((startCommit ms observe).1 = true ↔ ∃ i, i < 86400 ∧ observe i = State.DONE)) ∧
    (ms.state ≠ State.STEADY → startCommit ms observe = (false, ms)) := by
  constructor
  · intro h
    have hs : ¬ (ms.state ≠ State.STEADY) := fun hne => hne h
    unfold startCommit
    rw [if_neg hs]
    refine ⟨rfl, ?_⟩
    show pollDone observe 0 86400 = true ↔ _
    rw [pollDone_iff]
    simp
  · intro h
    unfold startCommit
    rw [if_pos h]

/-- Witness for C13 (amended): with a worker that reaches DONE at poll 3,
`startCommit` called in STEADY returns true. -/
theorem startCommit_spec_witness :
    steadyStatus.state = State.STEADY ∧
    (startCommit steadyStatus promptDone).1 = true :=
  ⟨by decide,
    ((startCommit_spec steadyStatus promptDone).1 (by decide)).2.mpr ⟨3, by decide, by decide⟩⟩

/-! ## Theorems: the scoped lock holder -/

/-- C14 fails on the code: two holders acquire the locks 1 and 2, the second is
assigned to the first, and both are destroyed.  The assignment overwrites the
first holder's `_lock` and `_got` without releasing what it held: lock 2 is
unlocked once, lock 1, acquired once, is never unlocked.  (Passing ownership
by the copy constructor alone releases the lock exactly once.) -/
theorem dist_lock_try_assign_leaks :
    runHolders [HolderOp.construct 1 true [], HolderOp.construct 2 true [],
        HolderOp.assign 0 1, HolderOp.destroy 0, HolderOp.destroy 1] =
      { holders := [none, none], acquired := [1, 2], unlocked := [2] } ∧
    (runHolders [HolderOp.construct 1 true [], HolderOp.construct 2 true [],
        HolderOp.assign 0 1, HolderOp.destroy 0, HolderOp.destroy 1]).acquired.count 1 = 1 ∧
    (runHolders [HolderOp.construct 1 true [], HolderOp.construct 2 true [],
        HolderOp.assign 0 1, HolderOp.destroy 0, HolderOp.destroy 1]).unlocked.count 1 = 0 ∧
    runHolders [HolderOp.construct 1 true [], HolderOp.copy 0,
        HolderOp.destroy 0, HolderOp.destroy 1] =
      { holders := [none, none], acquired := [1], unlocked := [1] } := by
  decide

end Migrate
